import Mathlib

/-!
Shallow embedding of the Living-Agent evolution simulator and verification of
the frozen claims about it.

The repository holds two snapshots of the simulator:

* `src/src/App.tsx` — the rich "sexual" variant (terrain, sex, aging,
  fertility, risk tolerance, social drive, collision detection, food
  recycling).  Embedded below in namespace `Sim`.
* the first snapshot inside `src/src:App.tsx` (lines 1-963) — the early
  asexual variant.  Embedded in namespace `Asexual`.

JavaScript numbers are modelled as `ℚ` (every arithmetic operation the
simulator performs — `+`, `-`, `*`, `/`, `Math.floor`, `Math.min/max`,
comparisons — is exact on the rationals it actually produces, so `ℚ` is a
faithful carrier and `NaN` is unrepresentable).  `Math.random()` is modelled
as consuming the head of an explicit list of draws; a draw list is *valid*
when every entry lies in `[0,1)`, which is the contract of `Math.random`.
Coordinates are `ℤ` (the source clamps them into the grid).  The diagnostic
log strings emitted by the source are presentational and are not modelled.
-/

namespace Sim

/-- The five movement actions (`type Direction`). -/
inductive Direction where
  | up | down | left | right | stay
deriving DecidableEq, Repr

/-- Agent sex (`"M" | "F"`). -/
inductive Sex where
  | M | F
deriving DecidableEq, Repr

/-- Cell terrain (`"plain" | "water" | "rich"`). -/
inductive Terrain where
  | plain | water | rich
deriving DecidableEq, Repr

/-- Gene vector (`interface Genes`). -/
structure Genes where
  foodPreference : ℚ
  exploration : ℚ
  reproductionThreshold : ℚ
  mutationRate : ℚ
  traitId : ℕ
  riskTolerance : ℚ
  socialDrive : ℚ
deriving DecidableEq, Repr

/-- Sparse Q-table (`Record<string, number>`), an association list with the
JS-object semantics used by the source: lookup takes the first (unique)
matching key, spread-update replaces the value in place or appends. -/
abbrev QTable := List (String × ℚ)

/-- `interface Memory`. -/
structure Memory where
  qTable : QTable
deriving DecidableEq, Repr

/-- `interface Agent`. -/
structure Agent where
  id : ℕ
  x : ℤ
  y : ℤ
  energy : ℚ
  sex : Sex
  ageTicks : ℕ
  genes : Genes
  memory : Memory
  lastRule : String
deriving DecidableEq, Repr

/-- `interface Cell`. -/
structure Cell where
  food : Bool
  agentId : Option ℕ
  terrain : Terrain
deriving DecidableEq, Repr

/-- Grid of cells, row-major: `grid[y][x]`. -/
abbrev Grid := List (List Cell)

/-- The stream of `Math.random()` draws. -/
abbrev RNG := List ℚ

/-- One `Math.random()` call: the next draw (0 when the supplied stream is
exhausted) and the rest of the stream. -/
def randFloat : RNG → ℚ × RNG
  | [] => (0, [])
  | r :: rest => (r, rest)

/-- A draw stream is valid when every entry is in `[0,1)`, the contract of
`Math.random()`. -/
def ValidRNG (rng : RNG) : Prop := ∀ r ∈ rng, 0 ≤ r ∧ r < 1

instance (rng : RNG) : Decidable (ValidRNG rng) :=
  inferInstanceAs (Decidable (∀ r ∈ rng, 0 ≤ r ∧ r < 1))

/-- `randomInt(max) = Math.floor(Math.random() * max)`. -/
def randomInt (max : ℕ) (rng : RNG) : ℕ × RNG :=
  let p := randFloat rng
  ((⌊p.1 * (max : ℚ)⌋).toNat, p.2)

/-- `CONFIG.grid.width`. -/
def GRID_WIDTH : ℤ := 16
/-- `CONFIG.grid.height`. -/
def GRID_HEIGHT : ℤ := 10
/-- `CONFIG.rl.alpha`. -/
def ALPHA : ℚ := 3/10
/-- `CONFIG.rl.gamma`. -/
def GAMMA : ℚ := 9/10
/-- `CONFIG.rl.epsilon`. -/
def EPSILON : ℚ := 1/5

/-- Default cell used for (never reached) out-of-bounds reads. -/
def defaultCell : Cell := { food := false, agentId := none, terrain := Terrain.plain }

/-- Bounds test `0 ≤ x < 16 ∧ 0 ≤ y < 10` used throughout the source. -/
def inBounds (x y : ℤ) : Bool :=
  decide (0 ≤ x) && decide (x < GRID_WIDTH) && decide (0 ≤ y) && decide (y < GRID_HEIGHT)

/-- Read `grid[y][x]`. -/
def gridGet (g : Grid) (x y : ℤ) : Cell :=
  ((g.getD y.toNat []).getD x.toNat defaultCell)

/-- Update one cell of the grid at `(x, y)`. -/
def gridModify (g : Grid) (x y : ℤ) (f : Cell → Cell) : Grid :=
  g.set y.toNat ((g.getD y.toNat []).set x.toNat (f (gridGet g x y)))

/-- `cell.food = b` at `(x, y)`. -/
def gridSetFood (g : Grid) (x y : ℤ) (b : Bool) : Grid :=
  gridModify g x y (fun c => { c with food := b })

/-- `cell.agentId = id` at `(x, y)`. -/
def gridSetAgentId (g : Grid) (x y : ℤ) (i : Option ℕ) : Grid :=
  gridModify g x y (fun c => { c with agentId := i })

/-- Movement delta of a direction (`DIRECTION_DELTAS`). -/
def delta : Direction → ℤ × ℤ
  | Direction.up => (0, -1)
  | Direction.down => (0, 1)
  | Direction.left => (-1, 0)
  | Direction.right => (1, 0)
  | Direction.stay => (0, 0)

/-- `applyDirection`: move one step and clamp into the grid. -/
def applyDirection (x y : ℤ) (dir : Direction) : ℤ × ℤ :=
  let d := delta dir
  (max 0 (min (GRID_WIDTH - 1) (x + d.1)), max 0 (min (GRID_HEIGHT - 1) (y + d.2)))

/-- JS template piece: `"1"` for a food bit, `"0"` otherwise. -/
def bit (b : Bool) : String := if b then "1" else "0"

/-- `getStateKey`: energy level (low/mid/high) plus the four directional food
bits, e.g. `"mid_0100"`. -/
def getStateKey (a : Agent) (g : Grid) : String :=
  let level : String := if a.energy ≤ 6 then "low" else if a.energy ≤ 14 then "mid" else "high"
  let foodUp := a.y > 0 && (gridGet g a.x (a.y - 1)).food
  let foodDown := a.y < GRID_HEIGHT - 1 && (gridGet g a.x (a.y + 1)).food
  let foodLeft := a.x > 0 && (gridGet g (a.x - 1) a.y).food
  let foodRight := a.x < GRID_WIDTH - 1 && (gridGet g (a.x + 1) a.y).food
  level ++ "_" ++ bit foodUp ++ bit foodDown ++ bit foodLeft ++ bit foodRight

/-- Action name used in Q-table keys. -/
def dirName : Direction → String
  | Direction.up => "up"
  | Direction.down => "down"
  | Direction.left => "left"
  | Direction.right => "right"
  | Direction.stay => "stay"

/-- `qKey(stateKey, action)`. -/
def qKey (stateKey : String) (action : Direction) : String :=
  stateKey ++ "|" ++ dirName action

/-- First-match association lookup, the JS object read. -/
def lookupQ : QTable → String → Option ℚ
  | [], _ => none
  | (k, v) :: rest, key => if k = key then some v else lookupQ rest key

/-- `getQ`: missing entries default to 0. -/
def getQ (t : QTable) (stateKey : String) (action : Direction) : ℚ :=
  (lookupQ t (qKey stateKey action)).getD 0

/-- Replace the value of a key in place (JS spread keeps the position of an
existing key and appends a fresh one). -/
def setEntry : QTable → String → ℚ → QTable
  | [], key, v => [(key, v)]
  | (k, w) :: rest, key, v =>
    if k = key then (k, v) :: rest else (k, w) :: setEntry rest key v

/-- `setQ`: functional update `{...qTable, [qKey]: value}`. -/
def setQ (t : QTable) (stateKey : String) (action : Direction) (v : ℚ) : QTable :=
  setEntry t (qKey stateKey action) v

/-- `ALL_ACTIONS`, in source order. -/
def ALL_ACTIONS : List Direction :=
  [Direction.up, Direction.down, Direction.left, Direction.right, Direction.stay]

/-- Loop state of `bestActionAndValue`: `none` models the
`Number.NEGATIVE_INFINITY` starting value (strictly below every real). -/
def betterThan (v : ℚ) : Option ℚ → Bool
  | none => true
  | some b => decide (b < v)

/-- The scan loop of `bestActionAndValue`. -/
def bestScan (t : QTable) (stateKey : String) :
    List Direction → Direction × Option ℚ → Direction × Option ℚ
  | [], acc => acc
  | a :: rest, acc =>
    let v := getQ t stateKey a
    if betterThan v acc.2 then bestScan t stateKey rest (a, some v)
    else bestScan t stateKey rest acc

/-- `bestActionAndValue`: linear scan over `ALL_ACTIONS` starting from
(`stay`, −∞); if the scan never improved on −∞ it returns `{stay, 0}`. -/
def bestActionAndValue (t : QTable) (stateKey : String) : Direction × ℚ :=
  let r := bestScan t stateKey ALL_ACTIONS (Direction.stay, none)
  match r.2 with
  | none => (Direction.stay, 0)
  | some v => (r.1, v)

/-- `chooseAction`: epsilon-greedy. -/
def chooseAction (t : QTable) (stateKey : String) (rng : RNG) : Direction × RNG :=
  let p := randFloat rng
  if p.1 < EPSILON then
    let q := randomInt ALL_ACTIONS.length p.2
    (ALL_ACTIONS.getD q.1 Direction.up, q.2)
  else
    ((bestActionAndValue t stateKey).1, p.2)

/-- A neighbour candidate considered by `decideMove`. -/
structure NeighborCand where
  x : ℤ
  y : ℤ
  dir : Direction
deriving DecidableEq, Repr

/-- The four orthogonal neighbour candidates of `(x, y)`, filtered to the
grid, in source order up/down/left/right. -/
def neighborsOf (x y : ℤ) : List NeighborCand :=
  ([⟨x, y - 1, Direction.up⟩, ⟨x, y + 1, Direction.down⟩,
    ⟨x - 1, y, Direction.left⟩, ⟨x + 1, y, Direction.right⟩] : List NeighborCand).filter
    (fun p => inBounds p.x p.y)

/-- The in-bounds orthogonal neighbours of the agent that currently hold
food (the `foodNeighbors` local of `decideMove`). -/
def foodNeighbors (a : Agent) (g : Grid) : List NeighborCand :=
  (neighborsOf a.x a.y).filter (fun n => (gridGet g n.x n.y).food)

/-- `CONFIG.energy.hungryCutoffRatio`. -/
def hungryCutoffRatio : ℚ := 6

/-- A neighbour candidate with its crowding score. -/
structure ScoredCand where
  x : ℤ
  y : ℤ
  dir : Direction
  score : ℕ
deriving DecidableEq, Repr

/-- Stable insertion: `x` goes after every element `y` with `le y x`. -/
def insertStable (le : α → α → Bool) (x : α) : List α → List α
  | [] => [x]
  | y :: ys => if le y x then y :: insertStable le x ys else x :: y :: ys

/-- Stable sort (ES2019 `Array.sort` is stable; with a consistent comparator
the stable-sorted result is unique, so any stable sort models it). -/
def sortStable (le : α → α → Bool) (l : List α) : List α :=
  l.foldl (fun acc x => insertStable le x acc) []

/-- Result of `decideMove`: direction, diagnostic rule tag, action. -/
structure Decision where
  dir : Direction
  rule : String
  action : Direction
deriving DecidableEq, Repr

/-- `decideMove`: hard survival rule, then social-drive bias, then the
epsilon-greedy learned policy. -/
def decideMove (agent : Agent) (grid : Grid) (stateKey : String)
    (allAgents : List Agent) (rng : RNG) : Decision × RNG :=
  let neighbors := neighborsOf agent.x agent.y
  let fns := neighbors.filter (fun n => (gridGet grid n.x n.y).food)
  let hungryThreshold := hungryCutoffRatio * agent.genes.foodPreference
  if agent.energy ≤ hungryThreshold ∧ fns ≠ [] then
    let q := randomInt fns.length rng
    let choice := fns.getD q.1 ⟨agent.x, agent.y, Direction.stay⟩
    (⟨choice.dir, "Rule 1: seek food (hard survival)", choice.dir⟩, q.2)
  else
    let afterSocial : Option (Decision × RNG) × RNG :=
      if hungryThreshold < agent.energy ∧ 1/10 < |agent.genes.socialDrive - 1/2| then
        let neighborScores : List ScoredCand := neighbors.map (fun n =>
          ⟨n.x, n.y, n.dir,
            (allAgents.filter (fun o =>
              o.id ≠ agent.id ∧ |o.x - n.x| + |o.y - n.y| ≤ 2)).length⟩)
        let sortedByScore :=
          if 1/2 < agent.genes.socialDrive then
            sortStable (fun a b => b.score ≤ a.score) neighborScores
          else
            sortStable (fun a b => a.score ≤ b.score) neighborScores
        let p := randFloat rng
        if p.1 < 3/10 ∧ sortedByScore ≠ [] then
          let choice := sortedByScore.getD 0 ⟨agent.x, agent.y, Direction.stay, 0⟩
          (some (⟨choice.dir,
            if 1/2 < agent.genes.socialDrive then "Social: seeking others"
            else "Social: avoiding others", choice.dir⟩, p.2), p.2)
        else (none, p.2)
      else (none, rng)
    match afterSocial.1 with
    | some res => res
    | none =>
      let c := chooseAction agent.memory.qTable stateKey afterSocial.2
      let ruleDesc := if c.1 = Direction.stay then "RL: choose stay" else "RL: learned policy"
      (⟨c.1, ruleDesc, c.1⟩, c.2)

/-- `randomTraitId() = randomInt(999999)`. -/
def randomTraitId (rng : RNG) : ℕ × RNG := randomInt 999999 rng

/-- `mutateValue`: with probability `mutationRate` nudge by a uniform delta in
`[-magnitude, magnitude]` and clamp to `[lo, hi]`. -/
def mutateValue (base mutationRate magnitude lo hi : ℚ) (rng : RNG) : ℚ × RNG :=
  let p := randFloat rng
  if p.1 < mutationRate then
    let q := randFloat p.2
    (min hi (max lo (base + (q.1 * 2 - 1) * magnitude)), q.2)
  else (base, p.2)

/-- `CONFIG.genes.mutation.newTraitChance`. -/
def newTraitChance : ℚ := 2/25

/-- `mutateGenes`: per-gene mutation with the clamp bounds hard-coded in the
source (`[0,1]` for the unit genes, `[8,30]` for `reproductionThreshold`,
`[0.01,0.6]` for `mutationRate`), plus the 8% "new family" trait reroll. -/
def mutateGenes (parent : Genes) (rng : RNG) : Genes × RNG :=
  let mr := parent.mutationRate
  let s1 := mutateValue parent.foodPreference mr (3/20) 0 1 rng
  let s2 := mutateValue parent.exploration mr (1/5) 0 1 s1.2
  let s3 := mutateValue parent.reproductionThreshold mr 3 8 30 s2.2
  let s4 := mutateValue parent.mutationRate mr (1/20) (1/100) (3/5) s3.2
  let p := randFloat s4.2
  let s5 : ℕ × RNG :=
    if p.1 < newTraitChance then randomTraitId p.2 else (parent.traitId, p.2)
  let s6 := mutateValue parent.riskTolerance mr (3/20) 0 1 s5.2
  let s7 := mutateValue parent.socialDrive mr (3/20) 0 1 s6.2
  (⟨s1.1, s2.1, s3.1, s4.1, s5.1, s6.1, s7.1⟩, s7.2)

/-- `combineGenes`: average the numeric genes, resolve the trait id (kept if
equal, rerolled if different), then mutate the combined vector. -/
def combineGenes (parent1 parent2 : Genes) (rng : RNG) : Genes × RNG :=
  let avgMutationRate := (parent1.mutationRate + parent2.mutationRate) / 2
  let t : ℕ × RNG :=
    if parent1.traitId = parent2.traitId then (parent1.traitId, rng)
    else randomTraitId rng
  let combined : Genes :=
    { foodPreference := (parent1.foodPreference + parent2.foodPreference) / 2
      exploration := (parent1.exploration + parent2.exploration) / 2
      reproductionThreshold := (parent1.reproductionThreshold + parent2.reproductionThreshold) / 2
      mutationRate := avgMutationRate
      traitId := t.1
      riskTolerance := (parent1.riskTolerance + parent2.riskTolerance) / 2
      socialDrive := (parent1.socialDrive + parent2.socialDrive) / 2 }
  mutateGenes combined t.2

/-- `CONFIG.time.minReproAgeYears`. -/
def minReproAgeYears : ℚ := 20
/-- `CONFIG.time.maxReproAgeYears`. -/
def maxReproAgeYears : ℚ := 120
/-- `CONFIG.time.yearsPerTick`. -/
def yearsPerTick : ℚ := 1/2
/-- `CONFIG.time.maxAgeYears`. -/
def maxAgeYears : ℚ := 200
/-- Peak fertility age (`primeAge` local of `fertilityFactor`). -/
def primeAge : ℚ := 28

/-- `fertilityFactor`: 0 outside the reproductive window `(20, 120)`, ramping
linearly up to 1 at the prime age 28 and back down to 0 at 120. -/
def fertilityFactor (ageYears : ℚ) : ℚ :=
  if ageYears ≤ minReproAgeYears ∨ maxReproAgeYears ≤ ageYears then 0
  else if ageYears ≤ primeAge then
    (ageYears - minReproAgeYears) / (primeAge - minReproAgeYears)
  else
    1 - (ageYears - primeAge) / (maxReproAgeYears - primeAge)

/-! ### The world step engine (`stepWorld`, `src/src/App.tsx` lines 590-899) -/

/-- Mutable state threaded through Phase 2 of `stepWorld`: the post-tick grid,
the agents already appended, the fresh-id counter, the per-tick destination
reservation map (string keys `"x,y"`, as in the source) and the per-tick
used-for-reproduction set. -/
structure StepState where
  newGrid : Grid
  updatedAgents : List Agent
  nextId : ℕ
  destMap : List (String × ℕ)
  usedForRepro : List ℕ
deriving DecidableEq, Repr

/-- Destination-map key `` `${x},${y}` ``. -/
def posKey (x y : ℤ) : String := toString x ++ "," ++ toString y

/-- `destinationMap.has(key)`. -/
def destHas (m : List (String × ℕ)) (k : String) : Bool := m.any (fun e => e.1 = k)

/-- A Phase-1 record (`interface AgentMove`). -/
structure AgentMove where
  agent : Agent
  newPos : ℤ × ℤ
  decision : Decision
  stateKey : String
deriving DecidableEq, Repr

/-- Phase 1: for every living agent, state key, decision against the pre-tick
grid, and tentative destination. -/
def computeMoves (agents : List Agent) (grid : Grid) (rng : RNG) :
    List AgentMove × RNG :=
  agents.foldl (fun acc a =>
    if a.energy ≤ 0 then acc
    else
      let sk := getStateKey a grid
      let d := decideMove a grid sk agents acc.2
      (acc.1 ++ [⟨a, applyDirection a.x a.y d.1.dir, d.1, sk⟩], d.2))
    (([] : List AgentMove), rng)

/-- Terrain/collision gate: water or an already-claimed destination reverts
the agent to its pre-tick position; otherwise the destination is claimed.
The water check reads the pre-tick grid, as the source does. -/
def resolveDest (gridOrig : Grid) (m : AgentMove) (dm : List (String × ℕ)) :
    (ℤ × ℤ) × List (String × ℕ) :=
  let destKey := posKey m.newPos.1 m.newPos.2
  if (gridGet gridOrig m.newPos.1 m.newPos.2).terrain = Terrain.water then
    ((m.agent.x, m.agent.y), dm)
  else if destHas dm destKey then
    ((m.agent.x, m.agent.y), dm)
  else
    (m.newPos, dm ++ [(destKey, m.agent.id)])

/-- Output of the energy/feeding stage. -/
structure EatOut where
  grid : Grid
  newEnergy : ℚ
  ateFood : Bool
  richBonus : ℚ
deriving DecidableEq, Repr

/-- Energy accounting at the final cell: base cost 1, food bonus 5 consuming
the food, extra 2 on rich terrain. -/
def eatAt (g : Grid) (pos : ℤ × ℤ) (energy : ℚ) : EatOut :=
  let newEnergy := energy - 1
  let cell := gridGet g pos.1 pos.2
  if cell.food then
    let rb : ℚ := if cell.terrain = Terrain.rich then 2 else 0
    { grid := gridSetFood g pos.1 pos.2 false
      newEnergy := newEnergy + 5 + rb
      ateFood := true
      richBonus := rb }
  else
    { grid := g, newEnergy := newEnergy, ateFood := false, richBonus := 0 }

/-- The four orthogonal positions of `(x, y)` filtered to the grid
(the `adjacentPositions` local). -/
def adjacentOf (x y : ℤ) : List (ℤ × ℤ) :=
  ([(x, y - 1), (x, y + 1), (x - 1, y), (x + 1, y)] : List (ℤ × ℤ)).filter
    (fun p => inBounds p.1 p.2)

/-- The mate eligibility checks of the inner loop: opposite sex, age within
the reproductive window, energy above the mate's own risk-adjusted
threshold. -/
def MateEligible (parent : Agent) (pm : Agent) : Prop :=
  let mateAgeYears := (pm.ageTicks : ℚ) * yearsPerTick
  pm.sex ≠ parent.sex ∧
  (minReproAgeYears ≤ mateAgeYears ∧ mateAgeYears ≤ maxReproAgeYears) ∧
  pm.genes.reproductionThreshold * (1 - (3/10) * (pm.genes.riskTolerance - 1/2)) < pm.energy

instance (parent pm : Agent) : Decidable (MateEligible parent pm) := by
  unfold MateEligible; infer_instance

/-- The mate-search loop: first adjacent position holding an agent that is
not yet used for reproduction this tick, found in the already-processed list
(falling back to the original list) and eligible. -/
def findMate (st : StepState) (agents : List Agent) (parent : Agent)
    (adj : List (ℤ × ℤ)) : Option Agent :=
  adj.findSome? (fun pos =>
    match (gridGet st.newGrid pos.1 pos.2).agentId with
    | none => none
    | some mateId =>
      if st.usedForRepro.contains mateId then none
      else
        match (st.updatedAgents.find? (fun a => a.id == mateId)).orElse
            (fun _ => agents.find? (fun a => a.id == mateId)) with
        | none => none
        | some pm => if MateEligible parent pm then some pm else none)

/-- `updatedAgents[i] = {...updatedAgents[i], energy: updatedAgents[i].energy - c}`,
a no-op when `i` is out of range (the `findIndex === -1` case). -/
def debitEnergyAt : List Agent → ℕ → ℚ → List Agent
  | [], _, _ => []
  | a :: t, 0, c => { a with energy := a.energy - c } :: t
  | a :: t, n + 1, c => a :: debitEnergyAt t n c

/-- Data of one successful mating, the locals of the birth block. -/
structure MatingInfo where
  mate : Agent
  mateIdx : ℕ
  parentEnergyBefore : ℚ
  parentCost : ℚ
  mateCost : ℚ
  childEnergy : ℚ
  child : Agent
deriving DecidableEq, Repr

/-- Output of the reproduction block. -/
structure RepOut where
  parent : Agent
  st : StepState
  rng : RNG
  mating : Option MatingInfo
deriving DecidableEq, Repr

/-- The sexual-reproduction block of Phase 2 (source lines 696-823): age and
risk-adjusted-threshold gates, mate search, fertility roll, free-spot search,
energy split between both parents, gene combination and child creation. -/
def reproductionPhase (agents : List Agent) (st : StepState) (parent0 : Agent)
    (rng : RNG) : RepOut :=
  let ageYearsForRepro := (parent0.ageTicks : ℚ) * yearsPerTick
  if (¬ st.usedForRepro.contains parent0.id) ∧
      (minReproAgeYears ≤ ageYearsForRepro ∧ ageYearsForRepro ≤ maxReproAgeYears) ∧
      parent0.genes.reproductionThreshold * (1 - (3/10) * (parent0.genes.riskTolerance - 1/2))
        < parent0.energy then
    let adj := adjacentOf parent0.x parent0.y
    match findMate st agents parent0 adj with
    | none => ⟨parent0, st, rng, none⟩
    | some mate =>
      let fertParent := fertilityFactor ageYearsForRepro
      let fertMate := fertilityFactor ((mate.ageTicks : ℚ) * yearsPerTick)
      let combinedFert := min fertParent fertMate
      let p := randFloat rng
      if p.1 ≤ combinedFert then
        let spots := adj.filter (fun s =>
          (gridGet st.newGrid s.1 s.2).agentId = none ∧
          (gridGet st.newGrid s.1 s.2).terrain ≠ Terrain.water ∧
          destHas st.destMap (posKey s.1 s.2) = false)
        if spots ≠ [] then
          let q := randomInt spots.length p.2
          let spot := spots.getD q.1 (0, 0)
          let totalEnergy := parent0.energy + mate.energy
          let childEnergy : ℚ := ((⌊totalEnergy / 3⌋ : ℤ) : ℚ)
          let parentCost : ℚ := ((⌊childEnergy / 2⌋ : ℤ) : ℚ)
          let mateCost := childEnergy - parentCost
          let parent1 := { parent0 with energy := parent0.energy - parentCost }
          let mi := st.updatedAgents.findIdx (fun a => a.id == mate.id)
          let updated1 := debitEnergyAt st.updatedAgents mi mateCost
          let used1 := st.usedForRepro ++ [parent1.id, mate.id]
          let cg := combineGenes parent1.genes mate.genes q.2
          let ps := randFloat cg.2
          let child : Agent :=
            { id := st.nextId
              x := spot.1
              y := spot.2
              energy := childEnergy
              sex := if ps.1 < 1/2 then Sex.M else Sex.F
              ageTicks := 0
              genes := cg.1
              memory := { qTable := parent1.memory.qTable }
              lastRule := "Born (sexual reproduction)" }
          ⟨parent1,
            { newGrid := gridSetAgentId st.newGrid spot.1 spot.2 (some child.id)
              updatedAgents := updated1 ++ [child]
              nextId := st.nextId + 1
              destMap := st.destMap ++ [(posKey spot.1 spot.2, child.id)]
              usedForRepro := used1 },
            ps.2, some ⟨mate, mi, parent0.energy, parentCost, mateCost, childEnergy, child⟩⟩
        else ⟨parent0, st, p.2, none⟩
      else ⟨parent0, st, p.2, none⟩
  else ⟨parent0, st, rng, none⟩

/-- Everything Phase 2 computes for one agent, mirroring the locals of the
loop body (so that claims about intermediate values can be stated). -/
structure ProcOut where
  st : StepState
  rng : RNG
  finalPos : ℤ × ℤ
  ateFood : Bool
  rewardBeforePenalty : ℚ
  reward : ℚ
  isDeadAfterStep : Bool
  oldQ : ℚ
  bestNext : ℚ
  updatedQ : ℚ
  mating : Option MatingInfo
  parentAfter : Agent
deriving DecidableEq, Repr

/-- The tail of the loop body: death determination (energy or old age), the
death penalty folded into the reward, the Bellman update keyed by the
pre-move state/action, and the survivor append + occupancy mark. -/
def finishAgent (st : StepState) (rng : RNG) (parent1 : Agent) (stateKey : String)
    (action : Direction) (reward1 : ℚ) (newAgeTicks : ℕ) (finalPos : ℤ × ℤ)
    (ateFood : Bool) (mating : Option MatingInfo) : ProcOut :=
  let ageYears := (newAgeTicks : ℚ) * yearsPerTick
  let isTooOld : Bool := decide (maxAgeYears < ageYears)
  let isDeadAfterStep : Bool := decide (parent1.energy ≤ 0) || isTooOld
  let reward := if isDeadAfterStep then reward1 - 5 else reward1
  let newStateKey := getStateKey { parent1 with x := finalPos.1, y := finalPos.2 } st.newGrid
  let oldQ := getQ parent1.memory.qTable stateKey action
  let bestNext := (bestActionAndValue parent1.memory.qTable newStateKey).2
  let updatedQ := (1 - ALPHA) * oldQ + ALPHA * (reward + GAMMA * bestNext)
  let parent2 := { parent1 with
    memory := { qTable := setQ parent1.memory.qTable stateKey action updatedQ } }
  let st2 :=
    if isDeadAfterStep then st
    else
      { st with
        updatedAgents := st.updatedAgents ++ [parent2]
        newGrid := gridSetAgentId st.newGrid parent2.x parent2.y (some parent2.id) }
  ⟨st2, rng, finalPos, ateFood, reward1, reward, isDeadAfterStep, oldQ, bestNext,
    updatedQ, mating, parent2⟩

/-- Output of the movement/feeding half of the loop body. -/
structure MoveOut where
  st : StepState
  finalPos : ℤ × ℤ
  ateFood : Bool
  richBonus : ℚ
  parent0 : Agent
deriving DecidableEq, Repr

/-- The movement/feeding half of the loop body: collision gate, energy
accounting and feeding, aging, and the post-move agent value. -/
def moveStage (gridOrig : Grid) (st : StepState) (m : AgentMove) : MoveOut :=
  let rd := resolveDest gridOrig m st.destMap
  let st1 := { st with destMap := rd.2 }
  let fe := eatAt st1.newGrid rd.1 m.agent.energy
  ⟨{ st1 with newGrid := fe.grid }, rd.1, fe.ateFood, fe.richBonus,
    { m.agent with
      x := rd.1.1, y := rd.1.2, energy := fe.newEnergy,
      lastRule := m.decision.rule, ageTicks := m.agent.ageTicks + 1 }⟩

/-- The whole Phase-2 loop body for one agent: collision gate, energy and
feeding, aging, reproduction, death, Q-update, survivor append. -/
def processAgentFull (gridOrig : Grid) (agents : List Agent) (st : StepState)
    (m : AgentMove) (rng : RNG) : ProcOut :=
  let mv := moveStage gridOrig st m
  let reward0 : ℚ := -1 + (if mv.ateFood then 5 + mv.richBonus else 0)
  let rp := reproductionPhase agents mv.st mv.parent0 rng
  let reward1 := reward0 + (if rp.mating.isSome then 2 else 0)
  finishAgent rp.st rp.rng rp.parent m.stateKey m.decision.action reward1
    mv.parent0.ageTicks mv.finalPos mv.ateFood rp.mating

/-- One Phase-2 iteration as a fold step. -/
def phase2Step (gridOrig : Grid) (agents : List Agent) (p : StepState × RNG)
    (m : AgentMove) : StepState × RNG :=
  let r := processAgentFull gridOrig agents p.1 m p.2
  (r.st, r.rng)

/-- Initial loop state: the input grid with all occupancy cleared, no agents
appended yet, fresh ids starting above the maximum input id. -/
def initState (grid : Grid) (agents : List Agent) : StepState :=
  { newGrid := grid.map (fun row => row.map (fun c => { c with agentId := none }))
    updatedAgents := []
    nextId := (agents.foldl (fun mx a => max mx a.id) 0) + 1
    destMap := []
    usedForRepro := [] }

/-- Phase 2 over all moves, in Phase-1 order. -/
def runPhase2 (gridOrig : Grid) (agents : List Agent) (moves : List AgentMove)
    (st : StepState) (rng : RNG) : StepState × RNG :=
  moves.foldl (phase2Step gridOrig agents) (st, rng)

/-! ### End-of-tick grid maintenance -/

/-- Number of food cells on the grid. -/
def foodCount (g : Grid) : ℕ :=
  (g.map (fun row => (row.filter (fun c => c.food)).length)).sum

/-- Food positions in row-major scan order, as `recycleFoodIfNeeded`
collects them. -/
def foodPositions (g : Grid) : List (ℤ × ℤ) :=
  (List.range 10).flatMap (fun y => (List.range 16).filterMap (fun x =>
    if (gridGet g (x : ℤ) (y : ℤ)).food then some ((x : ℤ), (y : ℤ)) else none))

/-- One insertion of the shuffle model (see `shuffleRandom`). -/
def insertShuffle (x : α) : List α → RNG → List α × RNG
  | [], rng => ([x], rng)
  | y :: ys, rng =>
    let p := randFloat rng
    if p.1 < 1/2 then (x :: y :: ys, p.2)
    else
      let t := insertShuffle x ys p.2
      (y :: t.1, t.2)

/-- Model of `positions.sort(() => Math.random() - 0.5)`.  A randomized sort
comparator makes the JS result engine-dependent; it is modelled as a stable
insertion sort whose comparator draws once per comparison.  No claim depends
on which food cells the shuffle selects. -/
def shuffleRandom (l : List α) (rng : RNG) : List α × RNG :=
  l.foldl (fun acc x => insertShuffle x acc.1 acc.2) ([], rng)

/-- The removal loop of `recycleFoodIfNeeded`. -/
def removeFoodLoop (g : Grid) (toRemove : ℚ) (removed : ℕ) :
    List (ℤ × ℤ) → Grid
  | [] => g
  | pos :: rest =>
    if toRemove ≤ (removed : ℚ) then g
    else removeFoodLoop (gridSetFood g pos.1 pos.2 false) toRemove (removed + 1) rest

/-- `recycleFoodIfNeeded`: when food exceeds `max(5, agents × maxFoodPerAgent)`
remove the excess from shuffled food positions. -/
def recycleFoodIfNeeded (g : Grid) (agentCount : ℕ) (maxFoodPerAgent : ℚ)
    (rng : RNG) : Grid × RNG :=
  let positions := foodPositions g
  let fc := positions.length
  let maxAllowedFood : ℚ := max 5 ((agentCount : ℚ) * maxFoodPerAgent)
  if (fc : ℚ) ≤ maxAllowedFood then (g, rng)
  else
    let toRemove := (fc : ℚ) - maxAllowedFood
    let sh := shuffleRandom positions rng
    (removeFoodLoop g toRemove 0 sh.1, sh.2)

/-- The bounded rejection-sampling loop of `placeRandomFood`; the fuel is the
`safety < 2000` counter.  Each iteration draws `y` then `x` and places food
on a non-food, non-occupied, non-water cell. -/
def placeRandomFoodAux (g : Grid) (count placed : ℕ) : ℕ → RNG → Grid × RNG
  | 0, rng => (g, rng)
  | fuel + 1, rng =>
    if placed < count then
      let qy := randomInt 10 rng
      let qx := randomInt 16 qy.2
      let x : ℤ := qx.1
      let y : ℤ := qy.1
      let c := gridGet g x y
      if c.food = false ∧ c.agentId = none ∧ c.terrain ≠ Terrain.water then
        placeRandomFoodAux (gridSetFood g x y true) count (placed + 1) fuel qx.2
      else
        placeRandomFoodAux g count placed fuel qx.2
    else (g, rng)

/-- `placeRandomFood(grid, count)`. -/
def placeRandomFood (g : Grid) (count : ℕ) (rng : RNG) : Grid × RNG :=
  placeRandomFoodAux g count 0 2000 rng

/-- `CONFIG.simulation.foodSpawnChance`. -/
def foodSpawnChance : ℚ := 3/4
/-- `CONFIG.simulation.foodSpawnCount`. -/
def foodSpawnCount : ℕ := 2

/-- The optional third argument of `stepWorld`. -/
structure FoodRecycleSettings where
  enabled : Bool
  maxFoodPerAgent : ℚ
deriving DecidableEq, Repr

/-- Result of `stepWorld` (diagnostic log strings omitted). -/
structure StepResult where
  agents : List Agent
  grid : Grid
deriving DecidableEq, Repr

/-- Phases 1 and 2 plus optional food recycling: the loop state, the grid
just before the end-of-tick spawn roll, and the remaining draws. -/
def preSpawn (agents : List Agent) (grid : Grid) (frs : Option FoodRecycleSettings)
    (rng : RNG) : StepState × Grid × RNG :=
  let cm := computeMoves agents grid rng
  let ph := runPhase2 grid agents cm.1 (initState grid agents) cm.2
  match frs with
  | some s =>
    if s.enabled then
      let rc := recycleFoodIfNeeded ph.1.newGrid ph.1.updatedAgents.length
        s.maxFoodPerAgent ph.2
      (ph.1, rc.1, rc.2)
    else (ph.1, ph.1.newGrid, ph.2)
  | none => (ph.1, ph.1.newGrid, ph.2)

/-- `stepWorld`: the complete tick, ending with the probabilistic food spawn
whose produced grid is the one returned. -/
def stepWorld (agents : List Agent) (grid : Grid) (frs : Option FoodRecycleSettings)
    (rng : RNG) : StepResult :=
  let ps := preSpawn agents grid frs rng
  let p := randFloat ps.2.2
  if p.1 < foodSpawnChance then
    { agents := ps.1.updatedAgents, grid := (placeRandomFood ps.2.1 foodSpawnCount p.2).1 }
  else
    { agents := ps.1.updatedAgents, grid := ps.2.1 }

end Sim

namespace Asexual

open Sim (Direction RNG randFloat randomInt QTable Memory dirName qKey getQ setQ
  ALL_ACTIONS bestActionAndValue chooseAction ALPHA GAMMA EPSILON GRID_WIDTH
  GRID_HEIGHT mutateValue randomTraitId bit inBounds)

/-!
The earliest asexual snapshot (first file inside `src/src:App.tsx`,
lines 1-444 of that file).  The RL helpers (`qKey`, `getQ`, `setQ`,
`bestActionAndValue`, `chooseAction`), `mutateValue`, `randomTraitId` and the
grid dimensions are textually identical to the rich variant and are shared
from namespace `Sim`.  Cells have no terrain, agents no sex and no age, and
there is no collision detection.
-/

/-- Asexual `interface Genes` (five fields, no personality traits). -/
structure Genes where
  foodPreference : ℚ
  exploration : ℚ
  reproductionThreshold : ℚ
  mutationRate : ℚ
  traitId : ℕ
deriving DecidableEq, Repr

/-- Asexual `interface Agent`. -/
structure Agent where
  id : ℕ
  x : ℤ
  y : ℤ
  energy : ℚ
  genes : Genes
  memory : Memory
  lastRule : String
deriving DecidableEq, Repr

/-- Asexual `interface Cell` (food and occupancy only). -/
structure Cell where
  food : Bool
  agentId : Option ℕ
deriving DecidableEq, Repr

abbrev Grid := List (List Cell)

def defaultCell : Cell := { food := false, agentId := none }

/-- Read `grid[y][x]`. -/
def gridGet (g : Grid) (x y : ℤ) : Cell :=
  ((g.getD y.toNat []).getD x.toNat defaultCell)

/-- Update one cell of the grid at `(x, y)`. -/
def gridModify (g : Grid) (x y : ℤ) (f : Cell → Cell) : Grid :=
  g.set y.toNat ((g.getD y.toNat []).set x.toNat (f (gridGet g x y)))

def gridSetFood (g : Grid) (x y : ℤ) (b : Bool) : Grid :=
  gridModify g x y (fun c => { c with food := b })

def gridSetAgentId (g : Grid) (x y : ℤ) (i : Option ℕ) : Grid :=
  gridModify g x y (fun c => { c with agentId := i })

/-- Number of food cells on the asexual grid. -/
def foodCount (g : Grid) : ℕ :=
  (g.map (fun row => (row.filter (fun c => c.food)).length)).sum

/-- Asexual `placeRandomFood` sampling loop: no terrain, so the only checks
are non-food and non-occupied. -/
def placeRandomFoodAux (g : Grid) (count placed : ℕ) : ℕ → RNG → Grid × RNG
  | 0, rng => (g, rng)
  | fuel + 1, rng =>
    if placed < count then
      let qy := randomInt 10 rng
      let qx := randomInt 16 qy.2
      let x : ℤ := qx.1
      let y : ℤ := qy.1
      let c := gridGet g x y
      if c.food = false ∧ c.agentId = none then
        placeRandomFoodAux (gridSetFood g x y true) count (placed + 1) fuel qx.2
      else
        placeRandomFoodAux g count placed fuel qx.2
    else (g, rng)

/-- Asexual `placeRandomFood(grid, count)`. -/
def placeRandomFood (g : Grid) (count : ℕ) (rng : RNG) : Grid × RNG :=
  placeRandomFoodAux g count 0 2000 rng

/-- Asexual `mutateGenes`: the four numeric genes with the same magnitudes
and clamps as the rich variant, plus the 8% trait reroll. -/
def mutateGenes (parent : Genes) (rng : RNG) : Genes × RNG :=
  let mr := parent.mutationRate
  let s1 := mutateValue parent.foodPreference mr (3/20) 0 1 rng
  let s2 := mutateValue parent.exploration mr (1/5) 0 1 s1.2
  let s3 := mutateValue parent.reproductionThreshold mr 3 8 30 s2.2
  let s4 := mutateValue parent.mutationRate mr (1/20) (1/100) (3/5) s3.2
  let p := randFloat s4.2
  let s5 : ℕ × RNG :=
    if p.1 < 2/25 then randomTraitId p.2 else (parent.traitId, p.2)
  (⟨s1.1, s2.1, s3.1, s4.1, s5.1⟩, s5.2)

/-- Asexual `getStateKey`: energy level plus a single aggregate
food-adjacency bit, e.g. `"mid_1"`. -/
def getStateKey (a : Agent) (g : Grid) : String :=
  let level : String := if a.energy ≤ 6 then "low" else if a.energy ≤ 14 then "mid" else "high"
  let neighbors := ([(a.x, a.y - 1), (a.x, a.y + 1), (a.x - 1, a.y), (a.x + 1, a.y)] :
    List (ℤ × ℤ)).filter (fun p => inBounds p.1 p.2)
  let foodNearby := neighbors.any (fun p => (gridGet g p.1 p.2).food)
  level ++ "_" ++ bit foodNearby

/-- Asexual neighbour candidate. -/
structure NeighborCand where
  x : ℤ
  y : ℤ
  dir : Direction
deriving DecidableEq, Repr

/-- Asexual `decideMove`: hard survival rule, else the epsilon-greedy learned
policy (no social bias in this snapshot). -/
def decideMove (agent : Agent) (grid : Grid) (stateKey : String) (rng : RNG) :
    Sim.Decision × RNG :=
  let neighbors := ([⟨agent.x, agent.y - 1, Direction.up⟩,
    ⟨agent.x, agent.y + 1, Direction.down⟩,
    ⟨agent.x - 1, agent.y, Direction.left⟩,
    ⟨agent.x + 1, agent.y, Direction.right⟩] : List NeighborCand).filter
    (fun p => inBounds p.x p.y)
  let fns := neighbors.filter (fun n => (gridGet grid n.x n.y).food)
  let hungryThreshold := 6 * agent.genes.foodPreference
  if agent.energy ≤ hungryThreshold ∧ fns ≠ [] then
    let q := randomInt fns.length rng
    let choice := fns.getD q.1 ⟨agent.x, agent.y, Direction.stay⟩
    (⟨choice.dir, "Rule 1: seek food (hard survival)", choice.dir⟩, q.2)
  else
    let c := chooseAction agent.memory.qTable stateKey rng
    let ruleDesc := if c.1 = Direction.stay then "RL: choose stay" else "RL: learned policy"
    (⟨c.1, ruleDesc, c.1⟩, c.2)

/-- Loop state of the asexual `stepWorld` (no destination map, no
used-for-reproduction set: this snapshot has no collision handling). -/
structure StepState where
  newGrid : Grid
  updatedAgents : List Agent
  nextId : ℕ
deriving DecidableEq, Repr

/-- Everything the asexual loop body computes for one agent, mirroring its
locals.  `rewardAtUpdate` is the `reward` variable at the moment the Bellman
update is computed; `rewardFinal` is its value after the dead branch (which
subtracts the death penalty only *after* the update, source line 431). -/
structure ProcOut where
  st : StepState
  rng : RNG
  ateFood : Bool
  rewardAtUpdate : ℚ
  rewardFinal : ℚ
  isDead : Bool
  oldQ : ℚ
  bestNext : ℚ
  updatedQ : ℚ
  parentAfter : Agent
deriving DecidableEq, Repr

/-- The asexual loop body for one living agent: decide against the pre-tick
grid, move with clamping (no collision or terrain gate), eat, asexual
reproduction by splitting energy, Bellman update, then survivor append —
with the death penalty subtracted from `reward` only after the update. -/
def processAgent (grid : Grid) (st : StepState) (agent : Agent) (rng : RNG) : ProcOut :=
  let stateKey := getStateKey agent grid
  let d := decideMove agent grid stateKey rng
  let dd := Sim.delta d.1.dir
  let newX := max 0 (min (GRID_WIDTH - 1) (agent.x + dd.1))
  let newY := max 0 (min (GRID_HEIGHT - 1) (agent.y + dd.2))
  let cell := gridGet st.newGrid newX newY
  let newEnergy := agent.energy - 1 + (if cell.food then 5 else 0)
  let grid1 := if cell.food then gridSetFood st.newGrid newX newY false else st.newGrid
  let ateFood := cell.food
  let reward0 : ℚ := -1 + (if ateFood then 5 else 0)
  let parent0 : Agent := { agent with
    x := newX, y := newY, energy := newEnergy, lastRule := d.1.rule }
  let rep :
      Agent × Grid × List Agent × ℕ × ℚ × RNG :=
    if parent0.genes.reproductionThreshold < parent0.energy then
      let spots := ([(newX, newY - 1), (newX, newY + 1), (newX - 1, newY),
        (newX + 1, newY)] : List (ℤ × ℤ)).filter
        (fun p => inBounds p.1 p.2 ∧ (gridGet grid1 p.1 p.2).agentId = none)
      if spots ≠ [] then
        let q := randomInt spots.length d.2
        let spot := spots.getD q.1 (0, 0)
        let childEnergy : ℚ := ((⌊parent0.energy / 2⌋ : ℤ) : ℚ)
        let parent1 := { parent0 with energy := parent0.energy - childEnergy }
        let cg := mutateGenes parent1.genes q.2
        let child : Agent :=
          { id := st.nextId, x := spot.1, y := spot.2, energy := childEnergy,
            genes := cg.1, memory := { qTable := [] },
            lastRule := "Born (memória genética + \"Mutation\")" }
        (parent1, gridSetAgentId grid1 spot.1 spot.2 (some child.id),
          st.updatedAgents ++ [child], st.nextId + 1, reward0 + 2, cg.2)
      else (parent0, grid1, st.updatedAgents, st.nextId, reward0, d.2)
    else (parent0, grid1, st.updatedAgents, st.nextId, reward0, d.2)
  let parentA := rep.1
  let grid2 := rep.2.1
  let agents1 := rep.2.2.1
  let nextId1 := rep.2.2.2.1
  let reward := rep.2.2.2.2.1
  let rng1 := rep.2.2.2.2.2
  let newStateKey := getStateKey { parentA with x := newX, y := newY } grid2
  let oldQ := getQ parentA.memory.qTable stateKey d.1.action
  let bestNext := (bestActionAndValue parentA.memory.qTable newStateKey).2
  let updatedQ := (1 - ALPHA) * oldQ + ALPHA * (reward + GAMMA * bestNext)
  let parentB := { parentA with
    memory := { qTable := setQ parentA.memory.qTable stateKey d.1.action updatedQ } }
  if 0 < parentB.energy then
    ⟨{ newGrid := gridSetAgentId grid2 parentB.x parentB.y (some parentB.id),
        updatedAgents := agents1 ++ [parentB], nextId := nextId1 },
      rng1, ateFood, reward, reward, false, oldQ, bestNext, updatedQ, parentB⟩
  else
    ⟨{ newGrid := grid2, updatedAgents := agents1, nextId := nextId1 },
      rng1, ateFood, reward, reward - 5, true, oldQ, bestNext, updatedQ, parentB⟩

/-- Asexual `stepWorld` result. -/
structure StepResult where
  agents : List Agent
  grid : Grid
deriving DecidableEq, Repr

/-- The asexual `stepWorld`: one sequential loop over the agents, then the
end-of-tick food spawn roll.  NOTE (source lines 438-441): on a successful
roll the source calls `placeRandomFood(newGrid, 1)` but discards the grid it
returns, so the returned grid is `newGrid` unchanged either way — the
food-spawn discard defect of this snapshot. -/
def stepWorld (agents : List Agent) (grid : Grid) (rng : RNG) : StepResult :=
  let init : StepState :=
    { newGrid := grid.map (fun row => row.map (fun c => { c with agentId := none }))
      updatedAgents := []
      nextId := (agents.foldl (fun mx a => max mx a.id) 0) + 1 }
  let ph := agents.foldl (fun (p : StepState × RNG) a =>
    if a.energy ≤ 0 then p
    else
      let r := processAgent grid p.1 a p.2
      (r.st, r.rng)) (init, rng)
  let p := randFloat ph.2
  if p.1 < 3/5 then
    { agents := ph.1.updatedAgents, grid := ph.1.newGrid }
  else
    { agents := ph.1.updatedAgents, grid := ph.1.newGrid }

end Asexual

/-! ## Claim-level predicates and concrete fixtures -/

namespace Sim

/-- At most one agent per cell: no two agents of the list share `(x, y)`. -/
def AtMostOneOccupant (agents : List Agent) : Prop :=
  agents.Pairwise (fun a b => (a.x, a.y) ≠ (b.x, b.y))

instance (agents : List Agent) : Decidable (AtMostOneOccupant agents) :=
  inferInstanceAs (Decidable (agents.Pairwise (fun a b : Agent => (a.x, a.y) ≠ (b.x, b.y))))

/-- An all-plain, food-free cell. -/
def plainCell : Cell := { food := false, agentId := none, terrain := Terrain.plain }

/-- A water cell. -/
def waterCell : Cell := { food := false, agentId := none, terrain := Terrain.water }

/-- Fixture grid for the collision scenario: everything plain and food-free
except a water cell at `(1, 0)`. -/
def gC1 : Grid :=
  (plainCell :: waterCell :: List.replicate 14 plainCell) ::
    List.replicate 9 (List.replicate 16 plainCell)

/-- Neutral fixture genes (social drive exactly 0.5, so the social bias is
skipped; food preference 1, so the hunger cutoff is 6). -/
def genesNeutral : Genes :=
  { foodPreference := 1, exploration := 1/2, reproductionThreshold := 12,
    mutationRate := 1/10, traitId := 7, riskTolerance := 1/2, socialDrive := 1/2 }

/-- Fixture agent 1: at `(0,0)`, its Q-table makes it move right into the
water cell, so the collision gate reverts it to `(0,0)` without reserving
`(0,0)` in the destination map. -/
def a1C1 : Agent :=
  { id := 1, x := 0, y := 0, energy := 10, sex := Sex.M, ageTicks := 0,
    genes := genesNeutral, memory := { qTable := [("mid_0000|right", 1)] },
    lastRule := "none" }

/-- Fixture agent 2: at `(0,1)`, its Q-table makes it move up into `(0,0)`,
which is unreserved and hence granted. -/
def a2C1 : Agent :=
  { id := 2, x := 0, y := 1, energy := 10, sex := Sex.F, ageTicks := 0,
    genes := genesNeutral, memory := { qTable := [("mid_0000|up", 1)] },
    lastRule := "none" }

/-- Draws for the collision scenario: two epsilon checks above 0.2 (both
agents exploit) and a failing food-spawn roll. -/
def rngC1 : RNG := [9/10, 9/10, 9/10]

/-- A plain cell holding food. -/
def foodCell : Cell := { food := true, agentId := none, terrain := Terrain.plain }

/-- Fixture grid with a single food cell at `(3, 2)`. -/
def gC6 : Grid :=
  List.replicate 2 (List.replicate 16 plainCell) ++
    ((List.replicate 3 plainCell ++ foodCell :: List.replicate 12 plainCell) ::
      List.replicate 7 (List.replicate 16 plainCell))

/-- Fixture: an all-plain, food-free grid. -/
def gEmptyS : Grid := List.replicate 10 (List.replicate 16 plainCell)

end Sim

namespace Asexual

/-- Fixture: an all-empty asexual grid. -/
def gEmptyA : Grid :=
  List.replicate 10 (List.replicate 16 ({ food := false, agentId := none } : Cell))

/-- Fixture: a fresh asexual loop state over the empty grid. -/
def stC3 : StepState := { newGrid := gEmptyA, updatedAgents := [], nextId := 1 }

/-- Fixture: neutral asexual genes. -/
def genesA : Genes :=
  { foodPreference := 1, exploration := 1/2, reproductionThreshold := 12,
    mutationRate := 1/10, traitId := 7 }

/-- Fixture: an asexual agent that will starve this tick (energy 1, base
cost 1, no food anywhere). -/
def aDying : Agent :=
  { id := 1, x := 0, y := 0, energy := 1, genes := genesA,
    memory := { qTable := [] }, lastRule := "none" }

end Asexual

namespace Sim

/-- Fixture: an already-processed mate at `(1, 0)` (female, 28 years, post
move energy 19). -/
def mateC5 : Agent :=
  { id := 2, x := 1, y := 0, energy := 19, sex := Sex.F, ageTicks := 56,
    genes := genesNeutral, memory := { qTable := [] }, lastRule := "m" }

/-- Fixture: the acting parent (male, will be 28 years after aging, energy
20 before the base cost). -/
def parentC5 : Agent :=
  { id := 1, x := 0, y := 0, energy := 20, sex := Sex.M, ageTicks := 55,
    genes := genesNeutral, memory := { qTable := [] }, lastRule := "none" }

/-- Fixture: the cell occupied by the processed mate. -/
def occCell : Cell := { food := false, agentId := some 2, terrain := Terrain.plain }

/-- Fixture: mid-tick loop state after the mate was processed. -/
def stC5 : StepState :=
  { newGrid := (plainCell :: occCell :: List.replicate 14 plainCell) ::
      List.replicate 9 (List.replicate 16 plainCell)
    updatedAgents := [mateC5]
    nextId := 3
    destMap := [("1,0", 2)]
    usedForRepro := [] }

/-- Fixture: the parent's Phase-1 move record (staying at `(0, 0)`). -/
def mC5 : AgentMove :=
  { agent := parentC5
    newPos := (0, 0)
    decision := ⟨Direction.stay, "RL: choose stay", Direction.stay⟩
    stateKey := "high_0000" }

/-- Fixture draws for the mating: fertility roll 0.5 (both parents are at
the prime age, so combined fertility is 1), spot index 0, seven
no-mutation draws, child-sex draw 0.3 (male). -/
def rngC5 : RNG := [1/2, 0, 9/10, 9/10, 9/10, 9/10, 9/10, 9/10, 9/10, 3/10]

/-- Fixture: the mating record the scenario produces. -/
def infoC5 : MatingInfo :=
  { mate := mateC5
    mateIdx := 0
    parentEnergyBefore := 19
    parentCost := 6
    mateCost := 6
    childEnergy := 12
    child :=
      { id := 3, x := 0, y := 1, energy := 12, sex := Sex.M, ageTicks := 0,
        genes := genesNeutral, memory := { qTable := [] },
        lastRule := "Born (sexual reproduction)" } }

/-- Fixture: a hungry agent at `(3, 3)` (energy 5, below the cutoff 6)
whose Q-table strongly favours `down`, while food sits on its north
neighbour `(3, 2)`. -/
def aC6 : Agent :=
  { id := 1, x := 3, y := 3, energy := 5, sex := Sex.M, ageTicks := 0,
    genes := genesNeutral, memory := { qTable := [("low_1000|down", 50)] },
    lastRule := "none" }

/-- Fixture: a rich-variant agent that will starve this tick. -/
def aDyingS : Agent :=
  { id := 1, x := 0, y := 0, energy := 1, sex := Sex.M, ageTicks := 0,
    genes := genesNeutral, memory := { qTable := [] }, lastRule := "none" }

/-- Fixture: a Phase-1 move record of the starving agent (staying in place
on the food-free grid). -/
def mC3 : AgentMove :=
  { agent := aDyingS
    newPos := (0, 0)
    decision := ⟨Direction.stay, "RL: choose stay", Direction.stay⟩
    stateKey := "low_0000" }

end Sim

namespace Load

/-!
Embedding of `handleFileLoad` (`src/src/App.tsx` lines 1339-1386): the
world-load validation and the all-or-nothing state update.  JSON parsing
itself is external; its outcome is modelled as `Option ParsedWorld`, where
`none` is a parse failure and a missing (`undefined`) field of the parsed
object is a `none` field.  Only the error-message prefixes are modelled (the
source interpolates values into them); the React state slice modelled is
the world state `(grid, agents, tick, history)` plus `loadError`.
-/

/-- `interface HistoryPoint`. -/
structure HistoryPoint where
  tick : ℤ
  totalAgents : ℕ
  byTrait : List (ℕ × ℕ)
deriving DecidableEq, Repr

/-- The parsed JSON object: each required top-level field may be absent. -/
structure ParsedWorld where
  grid : Option Sim.Grid
  agents : Option (List Sim.Agent)
  tick : Option ℤ
  history : Option (List HistoryPoint)
deriving DecidableEq, Repr

/-- The React state slice `handleFileLoad` touches. -/
structure AppState where
  grid : Sim.Grid
  agents : List Sim.Agent
  tick : ℤ
  history : List HistoryPoint
  loadError : Option String
deriving DecidableEq, Repr

/-- The dimension check of the source: row count against `GRID_HEIGHT` and
the length of row 0 (`parsed.grid[0]?.length`) against `GRID_WIDTH`. -/
def DimensionMismatch (g : Sim.Grid) : Prop :=
  g.length ≠ 10 ∨ (g.headD []).length ≠ 16

instance (g : Sim.Grid) : Decidable (DimensionMismatch g) := by
  unfold DimensionMismatch; infer_instance

/-- The per-agent bounds check of the source's validation loop. -/
def AgentOutOfBounds (a : Sim.Agent) : Prop :=
  a.x < 0 ∨ 16 ≤ a.x ∨ a.y < 0 ∨ 10 ≤ a.y

instance (a : Sim.Agent) : Decidable (AgentOutOfBounds a) := by
  unfold AgentOutOfBounds; infer_instance

/-- `handleFileLoad`: validate, then either replace the whole world state
(success) or record a descriptive load error leaving the world untouched
(the `catch` branch). -/
def handleFileLoad (st : AppState) (input : Option ParsedWorld) : AppState :=
  match input with
  | none => { st with loadError := some "Unexpected token in JSON" }
  | some p =>
    match p.grid, p.agents, p.tick, p.history with
    | some g, some ags, some t, some h =>
      if DimensionMismatch g then
        { st with loadError := some "Invalid grid dimensions" }
      else if ∃ a ∈ ags, AgentOutOfBounds a then
        { st with loadError := some "Invalid agent position" }
      else
        { grid := g, agents := ags, tick := t, history := h, loadError := none }
    | _, _, _, _ =>
      { st with
        loadError := some "Invalid world file: missing required fields (grid, agents, tick, or history)" }

/-- The rejection conditions named by the claim, as they appear in the
source: a parse failure, a missing required field, the source's dimension
check, or an out-of-bounds agent. -/
def ShouldReject (input : Option ParsedWorld) : Prop :=
  input = none ∨
  ∃ p, input = some p ∧
    (p.grid = none ∨ p.agents = none ∨ p.tick = none ∨ p.history = none ∨
      (∃ g, p.grid = some g ∧ DimensionMismatch g) ∨
      (∃ ags, p.agents = some ags ∧ ∃ a ∈ ags, AgentOutOfBounds a))

/-- Fixture: the previously-running app state. -/
def stPrev : AppState :=
  { grid := Sim.gEmptyS, agents := [], tick := 5, history := [], loadError := none }

/-- Fixture: a ragged 10-row grid, row 0 of the configured length 16 but
row 1 of length 1. -/
def raggedGrid : Sim.Grid :=
  (List.replicate 16 Sim.plainCell) :: [Sim.plainCell] ::
    List.replicate 8 (List.replicate 16 Sim.plainCell)

/-- Fixture: a parsed world carrying the ragged grid. -/
def raggedInput : ParsedWorld :=
  { grid := some raggedGrid, agents := some [], tick := some 0, history := some [] }

/-- Fixture: a parsed world whose `tick` field is missing. -/
def missingTickInput : ParsedWorld :=
  { grid := some Sim.gEmptyS, agents := some [], tick := none, history := some [] }

end Load

/-! ## Shared helper lemmas -/

namespace Sim

/-- An in-range `getD` is a member of the list. -/
theorem getD_mem_of_lt {α : Type} (l : List α) (i : ℕ) (d : α) (h : i < l.length) :
    l.getD i d ∈ l := by
  induction l generalizing i with
  | nil => simp at h
  | cons a t ih =>
    cases i with
    | zero => simp [List.getD]
    | succ n =>
      simp only [List.getD_cons_succ]
      exact List.mem_cons_of_mem _ (ih n (by simpa using h))

/-- With valid draws, `randomInt n` is a genuine index below `n`. -/
theorem randomInt_lt (n : ℕ) (rng : RNG) (hn : 0 < n) (hv : ValidRNG rng) :
    (randomInt n rng).1 < n := by
  unfold randomInt randFloat
  cases rng with
  | nil => simpa using hn
  | cons r rest =>
    have h0 : 0 ≤ r := (hv r (List.mem_cons_self r rest)).1
    have h1 : r < 1 := (hv r (List.mem_cons_self r rest)).2
    show (⌊r * (n : ℚ)⌋).toNat < n
    have hlt : (⌊r * (n : ℚ)⌋ : ℤ) < n := by
      apply Int.floor_lt.2
      push_cast
      calc r * n < 1 * n := by
            apply mul_lt_mul_of_pos_right h1
            exact_mod_cast hn
        _ = n := one_mul _
    omega

/-- `mutateValue` keeps a value inside `[lo, hi]`: the unmutated branch
returns the (in-bounds) base, the mutated branch hard-clamps. -/
theorem mutateValue_mem (base rate mag lo hi : ℚ) (rng : RNG)
    (hlohi : lo ≤ hi) (hb1 : lo ≤ base) (hb2 : base ≤ hi) :
    lo ≤ (mutateValue base rate mag lo hi rng).1 ∧
    (mutateValue base rate mag lo hi rng).1 ≤ hi := by
  simp only [mutateValue]
  split
  · exact ⟨le_min hlohi (le_max_left lo _), min_le_left hi _⟩
  · exact ⟨hb1, hb2⟩

/-- The average of two values of `[lo, hi]` lies in `[lo, hi]`. -/
theorem avg_mem (a b lo hi : ℚ) (ha1 : lo ≤ a) (ha2 : a ≤ hi) (hb1 : lo ≤ b)
    (hb2 : b ≤ hi) : lo ≤ (a + b) / 2 ∧ (a + b) / 2 ≤ hi := by
  constructor <;> [linarith; linarith]

/-- The clamp bounds the source's `mutateGenes` applies to each numeric
gene: `[0,1]` for `foodPreference`, `exploration`, `riskTolerance` and
`socialDrive`, the configured `[8,30]` for `reproductionThreshold` and
`[0.01,0.6]` for `mutationRate`. -/
def GenesInBounds (g : Genes) : Prop :=
  (0 ≤ g.foodPreference ∧ g.foodPreference ≤ 1) ∧
  (0 ≤ g.exploration ∧ g.exploration ≤ 1) ∧
  (8 ≤ g.reproductionThreshold ∧ g.reproductionThreshold ≤ 30) ∧
  (1/100 ≤ g.mutationRate ∧ g.mutationRate ≤ 3/5) ∧
  (0 ≤ g.riskTolerance ∧ g.riskTolerance ≤ 1) ∧
  (0 ≤ g.socialDrive ∧ g.socialDrive ≤ 1)

instance (g : Genes) : Decidable (GenesInBounds g) := by
  unfold GenesInBounds; infer_instance

/-- `mutateGenes` keeps every numeric gene inside its clamp bounds. -/
theorem mutateGenes_bounds (p : Genes) (rng : RNG) (h : GenesInBounds p) :
    GenesInBounds (mutateGenes p rng).1 := by
  obtain ⟨h1, h2, h3, h4, h5, h6⟩ := h
  unfold mutateGenes
  refine ⟨?_, ?_, ?_, ?_, ?_, ?_⟩
  · exact mutateValue_mem _ _ _ _ _ _ (by norm_num) h1.1 h1.2
  · exact mutateValue_mem _ _ _ _ _ _ (by norm_num) h2.1 h2.2
  · exact mutateValue_mem _ _ _ _ _ _ (by norm_num) h3.1 h3.2
  · exact mutateValue_mem _ _ _ _ _ _ (by norm_num) h4.1 h4.2
  · exact mutateValue_mem _ _ _ _ _ _ (by norm_num) h5.1 h5.2
  · exact mutateValue_mem _ _ _ _ _ _ (by norm_num) h6.1 h6.2

/-- Writing a food-bearing cell anywhere into a row cannot decrease its
food count. -/
theorem rowFood_le_set_food (row : List Cell) (j : ℕ) (c : Cell) (hc : c.food = true) :
    (row.filter (fun x => x.food)).length ≤ ((row.set j c).filter (fun x => x.food)).length := by
  induction row generalizing j with
  | nil => simp
  | cons a t ih =>
    cases j with
    | zero =>
      by_cases ha : a.food = true <;>
        simp [List.filter_cons, ha, hc, Nat.le_succ_of_le, List.length_filter_le]
    | succ n =>
      by_cases ha : a.food = true <;> simp [List.filter_cons, ha, ih n]

/-- Replacing a row with one of at least as much food cannot decrease the
grid's food count. -/
theorem foodCount_set_row (g : Grid) (j : ℕ) (row : List Cell)
    (h : ((g.getD j []).filter (fun c => c.food)).length ≤
      (row.filter (fun c => c.food)).length) :
    foodCount g ≤ foodCount (g.set j row) := by
  induction g generalizing j with
  | nil => simp [List.set]
  | cons r t ih =>
    cases j with
    | zero =>
      simp only [List.set, foodCount, List.map_cons, List.sum_cons]
      exact Nat.add_le_add_right (by simpa using h) _
    | succ n =>
      simp only [List.set, foodCount, List.map_cons, List.sum_cons]
      exact Nat.add_le_add_left (ih n (by simpa using h)) _

/-- Setting a cell's food flag to true cannot decrease the food count. -/
theorem foodCount_le_gridSetFood (g : Grid) (x y : ℤ) :
    foodCount g ≤ foodCount (gridSetFood g x y true) := by
  unfold gridSetFood gridModify
  exact foodCount_set_row g y.toNat _ (rowFood_le_set_food _ x.toNat _ rfl)

/-- The placement loop never removes food. -/
theorem foodCount_le_placeRandomFoodAux (count placed fuel : ℕ) :
    ∀ (g : Grid) (rng : RNG),
      foodCount g ≤ foodCount (placeRandomFoodAux g count placed fuel rng).1 := by
  induction fuel generalizing placed with
  | zero => intro g rng; exact le_refl _
  | succ n ih =>
    intro g rng
    show foodCount g ≤ foodCount (placeRandomFoodAux g count placed (n + 1) rng).1
    rw [placeRandomFoodAux]
    split
    · dsimp only
      split
      · exact le_trans (foodCount_le_gridSetFood g _ _) (ih _ _ _)
      · exact ih _ _ _
    · exact le_refl _

/-- Field-level description of `finishAgent`: when the agent ends the step
dead, the reward entering the Bellman update is the pre-penalty reward minus
the death penalty, and the posted Q-value is the Bellman combination of that
penalised reward. -/
theorem finishAgent_spec (st : StepState) (rng : RNG) (parent1 : Agent)
    (stateKey : String) (action : Direction) (reward1 : ℚ) (newAgeTicks : ℕ)
    (finalPos : ℤ × ℤ) (ateFood : Bool) (mating : Option MatingInfo)
    (hdead : (finishAgent st rng parent1 stateKey action reward1 newAgeTicks
      finalPos ateFood mating).isDeadAfterStep = true) :
    (finishAgent st rng parent1 stateKey action reward1 newAgeTicks finalPos
      ateFood mating).reward =
      (finishAgent st rng parent1 stateKey action reward1 newAgeTicks finalPos
        ateFood mating).rewardBeforePenalty - 5 ∧
    (finishAgent st rng parent1 stateKey action reward1 newAgeTicks finalPos
      ateFood mating).updatedQ =
      (1 - ALPHA) * (finishAgent st rng parent1 stateKey action reward1 newAgeTicks
        finalPos ateFood mating).oldQ +
        ALPHA * ((finishAgent st rng parent1 stateKey action reward1 newAgeTicks
          finalPos ateFood mating).reward +
          GAMMA * (finishAgent st rng parent1 stateKey action reward1 newAgeTicks
            finalPos ateFood mating).bestNext) := by
  simp only [finishAgent] at hdead ⊢
  rw [hdead]
  simp

/-- All agent ids present on a grid. -/
def gridIds (g : Grid) : List ℕ :=
  g.flatMap (fun row => row.filterMap (fun c => c.agentId))

/-- The Phase-2 occupancy invariant: every id on the working grid belongs to
an already-appended agent.  It holds of the initial loop state (occupancy is
cleared) and is preserved by every loop iteration. -/
def GridIdsCovered (st : StepState) : Prop :=
  ∀ i ∈ gridIds st.newGrid, ∃ u ∈ st.updatedAgents, u.id = i

instance (st : StepState) : Decidable (GridIdsCovered st) := by
  unfold GridIdsCovered; infer_instance

/-- `getD` past the end returns the default. -/
theorem getD_of_le_length {α : Type} (l : List α) (i : ℕ) (d : α)
    (h : l.length ≤ i) : l.getD i d = d := by
  induction l generalizing i with
  | nil => cases i <;> rfl
  | cons a t ih =>
    cases i with
    | zero => simp at h
    | succ n => simpa [List.getD_cons_succ] using ih n (by simpa using h)

/-- An id read off a cell is one of the grid's ids. -/
theorem mem_gridIds_of_gridGet (g : Grid) (x y : ℤ) (i : ℕ)
    (h : (gridGet g x y).agentId = some i) : i ∈ gridIds g := by
  unfold gridGet at h
  by_cases hy : y.toNat < g.length
  · by_cases hx : x.toNat < (g.getD y.toNat []).length
    · have hrow : g.getD y.toNat [] ∈ g := getD_mem_of_lt g y.toNat [] hy
      have hcell : (g.getD y.toNat []).getD x.toNat defaultCell ∈ g.getD y.toNat [] :=
        getD_mem_of_lt _ _ _ hx
      exact List.mem_flatMap.2 ⟨_, hrow, List.mem_filterMap.2 ⟨_, hcell, h⟩⟩
    · rw [getD_of_le_length _ _ _ (Nat.le_of_not_lt hx)] at h
      cases h
  · rw [getD_of_le_length _ _ _ (Nat.le_of_not_lt hy)] at h
    cases h

/-- Replacing a cell with one carrying the same `agentId` leaves the row's
id list unchanged. -/
theorem filterMap_agentId_set_same (row : List Cell) (k : ℕ) (c : Cell)
    (hc : c.agentId = (row.getD k defaultCell).agentId) :
    (row.set k c).filterMap (fun x => x.agentId) =
      row.filterMap (fun x => x.agentId) := by
  induction row generalizing k c with
  | nil => simp
  | cons a t ih =>
    cases k with
    | zero =>
      rw [List.getD_cons_zero] at hc
      rw [List.set_cons_zero, List.filterMap_cons, List.filterMap_cons, hc]
    | succ n =>
      rw [List.getD_cons_succ] at hc
      rw [List.set_cons_succ, List.filterMap_cons, List.filterMap_cons, ih n c hc]

/-- Setting the food flag never changes the grid's id list. -/
theorem gridIds_setFood (g : Grid) (x y : ℤ) (b : Bool) :
    gridIds (gridSetFood g x y b) = gridIds g := by
  unfold gridSetFood gridModify gridIds gridGet
  generalize y.toNat = j
  generalize x.toNat = k
  induction g generalizing j with
  | nil => simp
  | cons r t ih =>
    cases j with
    | zero =>
      simp only [List.set_cons_zero, List.getD_cons_zero, List.flatMap_cons]
      congr 1
      exact filterMap_agentId_set_same r k _ rfl
    | succ n =>
      simp only [List.set_cons_succ, List.getD_cons_succ, List.flatMap_cons]
      rw [ih n]

/-- `eatAt` only touches the food flag, so the grid's ids are unchanged. -/
theorem eatAt_gridIds (g : Grid) (pos : ℤ × ℤ) (e : ℚ) :
    gridIds (eatAt g pos e).grid = gridIds g := by
  simp only [eatAt]
  split
  · exact gridIds_setFood g pos.1 pos.2 false
  · rfl

/-- Ids of a row after writing a cell whose `agentId` is `some i`: the new
id or an old id. -/
theorem mem_filterMap_agentId_set (row : List Cell) (k : ℕ) (c : Cell) (i j : ℕ)
    (hc : c.agentId = some i)
    (hj : j ∈ (row.set k c).filterMap (fun x => x.agentId)) :
    j = i ∨ j ∈ row.filterMap (fun x => x.agentId) := by
  induction row generalizing k with
  | nil => simp at hj
  | cons a t ih =>
    cases k with
    | zero =>
      simp only [List.set_cons_zero, List.filterMap_cons, hc] at hj
      rcases List.mem_cons.1 hj with h | h
      · exact Or.inl h
      · right
        rw [List.filterMap_cons]
        cases ha : a.agentId <;> simp [ha, h]
    | succ n =>
      simp only [List.set_cons_succ, List.filterMap_cons] at hj ⊢
      cases ha : a.agentId with
      | none =>
        simp only [ha] at hj ⊢
        exact ih n hj
      | some w =>
        simp only [ha] at hj ⊢
        rcases List.mem_cons.1 hj with h | h
        · exact Or.inr (List.mem_cons.2 (Or.inl h))
        · rcases ih n h with h2 | h2
          · exact Or.inl h2
          · exact Or.inr (List.mem_cons.2 (Or.inr h2))

/-- Ids on a grid after `gridSetAgentId _ _ _ (some i)`. -/
theorem mem_gridIds_setAgentId (g : Grid) (x y : ℤ) (i j : ℕ)
    (hj : j ∈ gridIds (gridSetAgentId g x y (some i))) :
    j = i ∨ j ∈ gridIds g := by
  unfold gridSetAgentId gridModify gridGet at hj
  unfold gridIds at hj ⊢
  revert hj
  generalize y.toNat = p
  generalize x.toNat = k
  induction g generalizing p with
  | nil => intro hj; simp at hj
  | cons r t ih =>
    intro hj
    cases p with
    | zero =>
      simp only [List.set_cons_zero, List.getD_cons_zero, List.flatMap_cons] at hj ⊢
      rcases List.mem_append.1 hj with h | h
      · rcases mem_filterMap_agentId_set r k _ i j rfl h with h2 | h2
        · exact Or.inl h2
        · exact Or.inr (List.mem_append.2 (Or.inl h2))
      · exact Or.inr (List.mem_append.2 (Or.inr h))
    | succ n =>
      simp only [List.set_cons_succ, List.getD_cons_succ, List.flatMap_cons] at hj ⊢
      rcases List.mem_append.1 hj with h | h
      · exact Or.inr (List.mem_append.2 (Or.inl h))
      · rcases ih n h with h2 | h2
        · exact Or.inl h2
        · exact Or.inr (List.mem_append.2 (Or.inr h2))

/-- `findIdx` locates the element `find?` returns. -/
theorem find?_findIdx {α : Type} (l : List α) (p : α → Bool) (a : α)
    (h : l.find? p = some a) :
    l.findIdx p < l.length ∧ l[l.findIdx p]? = some a := by
  induction l with
  | nil => simp at h
  | cons b t ih =>
    by_cases hb : p b
    · rw [List.find?_cons_of_pos _ hb] at h
      rw [List.findIdx_cons]
      simp only [hb, cond_true]
      cases h
      exact ⟨Nat.succ_pos _, by simp⟩
    · rw [List.find?_cons_of_neg _ (by simpa using hb)] at h
      rw [List.findIdx_cons]
      simp only [hb, cond_false]
      obtain ⟨ih1, ih2⟩ := ih h
      exact ⟨Nat.succ_lt_succ ih1, by simpa using ih2⟩

/-- `debitEnergyAt` keeps the length. -/
theorem debitEnergyAt_length (l : List Agent) (i : ℕ) (c : ℚ) :
    (debitEnergyAt l i c).length = l.length := by
  induction l generalizing i with
  | nil => rfl
  | cons a t ih =>
    cases i with
    | zero => rfl
    | succ n => simpa [debitEnergyAt] using ih n

/-- `debitEnergyAt` replaces exactly the targeted entry by its debited
version. -/
theorem debitEnergyAt_getElem (l : List Agent) (i : ℕ) (c : ℚ) (a : Agent)
    (h : l[i]? = some a) :
    (debitEnergyAt l i c)[i]? = some { a with energy := a.energy - c } := by
  induction l generalizing i with
  | nil => simp at h
  | cons b t ih =>
    cases i with
    | zero =>
      simp only [List.getElem?_cons_zero, Option.some_inj] at h
      subst h
      simp [debitEnergyAt]
    | succ n =>
      simp only [List.getElem?_cons_succ] at h
      simpa [debitEnergyAt] using ih n h

/-- Every entry of a debited list matches an original entry on id, sex and
genes (only `energy` is touched). -/
theorem debitEnergyAt_mem (l : List Agent) (i : ℕ) (c : ℚ) :
    ∀ v ∈ debitEnergyAt l i c, ∃ u ∈ l,
      v.id = u.id ∧ v.sex = u.sex ∧ v.genes = u.genes := by
  induction l generalizing i with
  | nil => intro v hv; simp [debitEnergyAt] at hv
  | cons a t ih =>
    cases i with
    | zero =>
      intro v hv
      rcases List.mem_cons.1 hv with h | h
      · exact ⟨a, List.mem_cons_self a t, by simp [h]⟩
      · exact ⟨v, List.mem_cons.2 (Or.inr h), rfl, rfl, rfl⟩
    | succ n =>
      intro v hv
      rcases List.mem_cons.1 hv with h | h
      · exact ⟨a, List.mem_cons_self a t, by simp [h]⟩
      · obtain ⟨u, hu, hfields⟩ := ih n v h
        exact ⟨u, List.mem_cons.2 (Or.inr hu), hfields⟩

/-- Under the occupancy invariant, a mate returned by `findMate` is the
first entry of the already-processed list with its id (the `orElse`
fallback to the original list never fires). -/
theorem findMate_spec (st : StepState) (agents : List Agent) (parent : Agent)
    (adj : List (ℤ × ℤ)) (mate : Agent) (hcov : GridIdsCovered st)
    (h : findMate st agents parent adj = some mate) :
    st.updatedAgents.find? (fun a => a.id == mate.id) = some mate := by
  induction adj with
  | nil => simp [findMate] at h
  | cons pos rest ih =>
    rw [findMate, List.findSome?_cons] at h
    split at h
    · rename_i b heq
      rw [Option.some_inj] at h
      subst h
      split at heq
      · exact absurd heq (by simp)
      · rename_i mid hA
        split at heq
        · exact absurd heq (by simp)
        · rename_i hused
          split at heq
          · exact absurd heq (by simp)
          · rename_i pm hfind
            split at heq
            · have hmem : mid ∈ gridIds st.newGrid :=
                mem_gridIds_of_gridGet st.newGrid pos.1 pos.2 mid hA
              obtain ⟨u, hu, huid⟩ := hcov mid hmem
              have hsome : (st.updatedAgents.find? (fun a => a.id == mid)).isSome :=
                List.find?_isSome.2 ⟨u, hu, by simpa using huid⟩
              obtain ⟨w, hw⟩ := Option.isSome_iff_exists.1 hsome
              rw [hw] at hfind
              simp only [Option.orElse] at hfind
              rw [Option.some_inj] at hfind heq
              have hwid : w.id = mid := by
                have := List.find?_some hw
                simpa using this
              rw [← heq, ← hfind, hwid]
              exact hw
            · exact absurd heq (by simp)
    · rename_i heq
      exact ih h

/-- Field-level description of a successful mating in `reproductionPhase`,
under the occupancy invariant: the two parental energy debits sum to the
child's energy, the acting parent leaves with its post-move energy minus its
share, and the mate's entry of the already-processed list is replaced by the
same agent with its share subtracted. -/
theorem reproductionPhase_spec (agents : List Agent) (st : StepState)
    (parent0 : Agent) (rng : RNG) (info : MatingInfo) (hcov : GridIdsCovered st)
    (h : (reproductionPhase agents st parent0 rng).mating = some info) :
    info.parentCost + info.mateCost = info.childEnergy ∧
    info.child.energy = info.childEnergy ∧
    (reproductionPhase agents st parent0 rng).parent.energy =
      info.parentEnergyBefore - info.parentCost ∧
    info.parentEnergyBefore = parent0.energy ∧
    info.mateIdx < st.updatedAgents.length ∧
    st.updatedAgents[info.mateIdx]? = some info.mate ∧
    (reproductionPhase agents st parent0 rng).st.updatedAgents[info.mateIdx]? =
      some { info.mate with energy := info.mate.energy - info.mateCost } ∧
    (reproductionPhase agents st parent0 rng).st.updatedAgents.length =
      st.updatedAgents.length + 1 := by
  rcases hE : reproductionPhase agents st parent0 rng with ⟨p1, st1, rng1, mat⟩
  rw [hE] at h
  simp only at h
  simp only [reproductionPhase] at hE
  split at hE
  · split at hE
    · cases hE
      exact absurd h (by simp)
    · rename_i mate hfm
      split at hE
      · split at hE
        · rename_i hspots
          cases hE
          rw [Option.some_inj] at h
          subst h
          dsimp only
          have hfind := findMate_spec st agents parent0
            (adjacentOf parent0.x parent0.y) mate hcov hfm
          obtain ⟨hi1, hi2⟩ := find?_findIdx _ _ _ hfind
          refine ⟨by ring, rfl, by ring, rfl, hi1, hi2, ?_, ?_⟩
          · rw [List.getElem?_append_left (by rw [debitEnergyAt_length]; exact hi1)]
            exact debitEnergyAt_getElem _ _ _ _ hi2
          · rw [List.length_append, debitEnergyAt_length]
            rfl
        · cases hE
          exact absurd h (by simp)
      · cases hE
        exact absurd h (by simp)
  · cases hE
    exact absurd h (by simp)

/-- `finishAgent` only ever appends to the processed list, so any in-range
entry is untouched. -/
theorem finishAgent_updatedAgents_prefix (st : StepState) (rng : RNG) (p : Agent)
    (sk : String) (ac : Direction) (r1 : ℚ) (na : ℕ) (fp : ℤ × ℤ) (af : Bool)
    (mt : Option MatingInfo) (i : ℕ) (h : i < st.updatedAgents.length) :
    (finishAgent st rng p sk ac r1 na fp af mt).st.updatedAgents[i]? =
      st.updatedAgents[i]? := by
  simp only [finishAgent]
  split
  · rfl
  · exact List.getElem?_append_left h

/-- `moveStage` does not touch the processed list. -/
theorem moveStage_updatedAgents (gridOrig : Grid) (st : StepState) (m : AgentMove) :
    (moveStage gridOrig st m).st.updatedAgents = st.updatedAgents := rfl

/-- `moveStage` preserves the occupancy invariant (it only clears a food
flag and claims a destination). -/
theorem moveStage_covered (gridOrig : Grid) (st : StepState) (m : AgentMove)
    (hcov : GridIdsCovered st) : GridIdsCovered (moveStage gridOrig st m).st := by
  intro i hi
  have hg : gridIds (moveStage gridOrig st m).st.newGrid = gridIds st.newGrid :=
    eatAt_gridIds st.newGrid (resolveDest gridOrig m st.destMap).1 m.agent.energy
  rw [hg] at hi
  rw [moveStage_updatedAgents]
  exact hcov i hi

/-- Debiting keeps every original entry represented (id, sex and genes
unchanged). -/
theorem debitEnergyAt_mem_rev (l : List Agent) (i : ℕ) (c : ℚ) :
    ∀ u ∈ l, ∃ v ∈ debitEnergyAt l i c,
      v.id = u.id ∧ v.sex = u.sex ∧ v.genes = u.genes := by
  induction l generalizing i with
  | nil => intro u hu; simp at hu
  | cons a t ih =>
    cases i with
    | zero =>
      intro u hu
      rcases List.mem_cons.1 hu with h | h
      · exact ⟨{ a with energy := a.energy - c }, List.mem_cons_self _ _, by simp [h]⟩
      · exact ⟨u, List.mem_cons.2 (Or.inr h), rfl, rfl, rfl⟩
    | succ n =>
      intro u hu
      rcases List.mem_cons.1 hu with h | h
      · exact ⟨a, List.mem_cons_self _ _, by simp [h]⟩
      · obtain ⟨v, hv, hfields⟩ := ih n u h
        exact ⟨v, List.mem_cons.2 (Or.inr hv), hfields⟩

/-- The reproduction block preserves the occupancy invariant: the only id it
adds to the grid is the newborn's, which it also appends to the processed
list. -/
theorem reproductionPhase_covered (agents : List Agent) (st : StepState)
    (parent0 : Agent) (rng : RNG) (hcov : GridIdsCovered st) :
    GridIdsCovered (reproductionPhase agents st parent0 rng).st := by
  rcases hE : reproductionPhase agents st parent0 rng with ⟨p1, st1, rng1, mat⟩
  dsimp only
  simp only [reproductionPhase] at hE
  split at hE
  · split at hE
    · cases hE
      exact hcov
    · rename_i mate hfm
      split at hE
      · split at hE
        · rename_i hspots
          cases hE
          intro i hi
          dsimp only at hi ⊢
          rcases mem_gridIds_setAgentId _ _ _ _ _ hi with h | h
          · refine ⟨_, List.mem_append.2 (Or.inr (List.mem_cons_self _ _)), ?_⟩
            simpa using h.symm
          · obtain ⟨u, hu, huid⟩ := hcov i h
            obtain ⟨v, hv, hvid, _, _⟩ := debitEnergyAt_mem_rev st.updatedAgents
              (st.updatedAgents.findIdx (fun a => a.id == mate.id)) _ u hu
            exact ⟨v, List.mem_append.2 (Or.inl hv), hvid.trans huid⟩
        · cases hE
          exact hcov
      · cases hE
        exact hcov
  · cases hE
    exact hcov

/-- The loop tail preserves the occupancy invariant: a survivor marks its
cell and is appended in the same step. -/
theorem finishAgent_covered (st : StepState) (rng : RNG) (p : Agent)
    (sk : String) (ac : Direction) (r1 : ℚ) (na : ℕ) (fp : ℤ × ℤ) (af : Bool)
    (mt : Option MatingInfo) (hcov : GridIdsCovered st) :
    GridIdsCovered (finishAgent st rng p sk ac r1 na fp af mt).st := by
  simp only [finishAgent]
  split
  · exact hcov
  · intro i hi
    dsimp only at hi ⊢
    rcases mem_gridIds_setAgentId _ _ _ _ _ hi with h | h
    · refine ⟨_, List.mem_append.2 (Or.inr (List.mem_cons_self _ _)), ?_⟩
      simpa using h.symm
    · obtain ⟨u, hu, huid⟩ := hcov i h
      exact ⟨u, List.mem_append.2 (Or.inl hu), huid⟩

/-- The whole loop body preserves the occupancy invariant. -/
theorem processAgentFull_covered (gridOrig : Grid) (agents : List Agent)
    (st : StepState) (m : AgentMove) (rng : RNG) (hcov : GridIdsCovered st) :
    GridIdsCovered (processAgentFull gridOrig agents st m rng).st :=
  finishAgent_covered _ _ _ _ _ _ _ _ _ _
    (reproductionPhase_covered agents _ _ rng (moveStage_covered gridOrig st m hcov))

/-- The cleared initial grid holds no ids at all. -/
theorem gridIds_clear (g : Grid) :
    gridIds (g.map (fun row => row.map (fun c => { c with agentId := none }))) = [] := by
  induction g with
  | nil => rfl
  | cons r t ih =>
    simp only [List.map_cons, gridIds, List.flatMap_cons] at ih ⊢
    rw [ih]
    have hrow : (r.map (fun c => ({ c with agentId := none } : Cell))).filterMap
        (fun c => c.agentId) = [] := by
      induction r with
      | nil => rfl
      | cons c rc ihr => simp [List.filterMap_cons, ihr]
    simp [hrow]

/-- The occupancy invariant holds in every state Phase 2 reaches. -/
theorem runPhase2_covered (gridOrig : Grid) (agents : List Agent)
    (moves : List AgentMove) (st : StepState) (rng : RNG)
    (hcov : GridIdsCovered st) :
    GridIdsCovered (runPhase2 gridOrig agents moves st rng).1 := by
  induction moves generalizing st rng with
  | nil => exact hcov
  | cons m ms ih =>
    exact ih _ _ (processAgentFull_covered gridOrig agents st m rng hcov)

/-- The occupancy invariant holds of `stepWorld`'s initial loop state. -/
theorem initState_covered (grid : Grid) (agents : List Agent) :
    GridIdsCovered (initState grid agents) := by
  intro i hi
  rw [initState] at hi
  dsimp only at hi
  rw [gridIds_clear] at hi
  simp at hi

/-- `agents.reduce((max, a) => Math.max(max, a.id), 0)`. -/
def maxId (agents : List Agent) : ℕ :=
  agents.foldl (fun mx a => max mx a.id) 0

/-- `u` carries the id, sex and genes of some input agent. -/
def DerivedFrom (agents : List Agent) (u : Agent) : Prop :=
  ∃ a ∈ agents, u.id = a.id ∧ u.sex = a.sex ∧ u.genes = a.genes

/-- Phase-2 lineage invariant: every appended agent either carries an input
agent's id/sex/genes unchanged, or is a newborn whose fresh id exceeds every
input id; and the id counter stays above every input id. -/
def LineageInv (agents : List Agent) (st : StepState) : Prop :=
  (∀ u ∈ st.updatedAgents, DerivedFrom agents u ∨ maxId agents < u.id) ∧
  maxId agents < st.nextId

/-- The max-fold is at least its accumulator. -/
theorem le_foldl_max (l : List Agent) (acc : ℕ) :
    acc ≤ l.foldl (fun mx a => max mx a.id) acc := by
  induction l generalizing acc with
  | nil => exact le_refl _
  | cons a t ih => exact le_trans (Nat.le_max_left acc a.id) (ih _)

/-- Every member's id is bounded by `maxId`. -/
theorem id_le_maxId (agents : List Agent) (a : Agent) (h : a ∈ agents) :
    a.id ≤ maxId agents := by
  suffices aux : ∀ (l : List Agent) (acc : ℕ), ∀ a ∈ l,
      a.id ≤ l.foldl (fun mx x => max mx x.id) acc from aux agents 0 a h
  intro l
  induction l with
  | nil => intro acc b hb; simp at hb
  | cons c t ih =>
    intro acc b hb
    rcases List.mem_cons.1 hb with h1 | h1
    · subst h1
      exact le_trans (Nat.le_max_right acc b.id) (le_foldl_max t _)
    · exact ih _ b h1

/-- The reproduction block preserves the lineage invariant: the debit keeps
id/sex/genes, and the newborn's id is the (above-maximum) counter value. -/
theorem reproductionPhase_lineage (A agents : List Agent) (st : StepState)
    (parent0 : Agent) (rng : RNG) (hinv : LineageInv A st) :
    LineageInv A (reproductionPhase agents st parent0 rng).st := by
  rcases hE : reproductionPhase agents st parent0 rng with ⟨p1, st1, rng1, mat⟩
  dsimp only
  simp only [reproductionPhase] at hE
  split at hE
  · split at hE
    · cases hE
      exact hinv
    · rename_i mate hfm
      split at hE
      · split at hE
        · rename_i hspots
          cases hE
          constructor
          · intro u hu
            dsimp only at hu
            rcases List.mem_append.1 hu with h | h
            · obtain ⟨w, hw, hid, hsex, hg⟩ := debitEnergyAt_mem _ _ _ u h
              rcases hinv.1 w hw with ⟨a, ha, hid2, hsex2, hg2⟩ | hnew
              · exact Or.inl ⟨a, ha, hid.trans hid2, hsex.trans hsex2, hg.trans hg2⟩
              · exact Or.inr (hid ▸ hnew)
            · rcases List.mem_cons.1 h with h2 | h2
              · subst h2
                exact Or.inr hinv.2
              · simp at h2
          · exact Nat.lt_succ_of_lt hinv.2
        · cases hE
          exact hinv
      · cases hE
        exact hinv
  · cases hE
    exact hinv

/-- The reproduction block never changes the acting parent's id, sex or
genes (only its energy). -/
theorem reproductionPhase_parent_fields (agents : List Agent) (st : StepState)
    (parent0 : Agent) (rng : RNG) :
    (reproductionPhase agents st parent0 rng).parent.id = parent0.id ∧
    (reproductionPhase agents st parent0 rng).parent.sex = parent0.sex ∧
    (reproductionPhase agents st parent0 rng).parent.genes = parent0.genes := by
  rcases hE : reproductionPhase agents st parent0 rng with ⟨p1, st1, rng1, mat⟩
  dsimp only
  simp only [reproductionPhase] at hE
  split at hE
  · split at hE
    · cases hE
      exact ⟨rfl, rfl, rfl⟩
    · rename_i mate hfm
      split at hE
      · split at hE
        · cases hE
          exact ⟨rfl, rfl, rfl⟩
        · cases hE
          exact ⟨rfl, rfl, rfl⟩
      · cases hE
        exact ⟨rfl, rfl, rfl⟩
  · cases hE
    exact ⟨rfl, rfl, rfl⟩

/-- The loop tail preserves the lineage invariant, provided the appended
survivor itself satisfies the disjunction. -/
theorem finishAgent_lineage (A : List Agent) (st : StepState) (rng : RNG)
    (p : Agent) (sk : String) (ac : Direction) (r1 : ℚ) (na : ℕ) (fp : ℤ × ℤ)
    (af : Bool) (mt : Option MatingInfo)
    (hp : DerivedFrom A p ∨ maxId A < p.id) (hinv : LineageInv A st) :
    LineageInv A (finishAgent st rng p sk ac r1 na fp af mt).st := by
  simp only [finishAgent]
  split
  · exact hinv
  · constructor
    · intro u hu
      dsimp only at hu
      rcases List.mem_append.1 hu with h | h
      · exact hinv.1 u h
      · rcases List.mem_cons.1 h with h2 | h2
        · subst h2
          exact hp
        · simp at h2
    · exact hinv.2

/-- The whole loop body preserves the lineage invariant when the processed
move belongs to an input agent. -/
theorem processAgentFull_lineage (gridOrig : Grid) (agents : List Agent)
    (st : StepState) (m : AgentMove) (rng : RNG) (hm : m.agent ∈ agents)
    (hinv : LineageInv agents st) :
    LineageInv agents (processAgentFull gridOrig agents st m rng).st := by
  apply finishAgent_lineage
  · left
    obtain ⟨h1, h2, h3⟩ := reproductionPhase_parent_fields agents
      (moveStage gridOrig st m).st (moveStage gridOrig st m).parent0 rng
    exact ⟨m.agent, hm, h1, h2, h3⟩
  · exact reproductionPhase_lineage agents agents _ _ rng hinv

/-- Every Phase-1 move record belongs to an input agent. -/
theorem computeMoves_mem (agents : List Agent) (grid : Grid) (rng : RNG) :
    ∀ m ∈ (computeMoves agents grid rng).1, m.agent ∈ agents := by
  unfold computeMoves
  suffices aux : ∀ (l : List Agent) (acc : List AgentMove × RNG),
      (∀ m ∈ acc.1, m.agent ∈ agents) → (∀ a ∈ l, a ∈ agents) →
      ∀ m ∈ (l.foldl (fun acc a =>
        if a.energy ≤ 0 then acc
        else
          let sk := getStateKey a grid
          let d := decideMove a grid sk agents acc.2
          (acc.1 ++ [⟨a, applyDirection a.x a.y d.1.dir, d.1, sk⟩], d.2)) acc).1,
        m.agent ∈ agents by
    exact aux agents ([], rng) (by intro m hm; simp at hm) (fun a ha => ha)
  intro l
  induction l with
  | nil => intro acc hacc _ m hm; exact hacc m hm
  | cons a t ih =>
    intro acc hacc hl m hm
    rw [List.foldl_cons] at hm
    refine ih _ ?_ (fun b hb => hl b (List.mem_cons.2 (Or.inr hb))) m hm
    intro m2 hm2
    split at hm2
    · exact hacc m2 hm2
    · dsimp only at hm2
      rcases List.mem_append.1 hm2 with h | h
      · exact hacc m2 h
      · rcases List.mem_cons.1 h with h2 | h2
        · subst h2
          exact hl a (List.mem_cons_self a t)
        · simp at h2

/-- The lineage invariant holds in every state Phase 2 reaches. -/
theorem runPhase2_lineage (gridOrig : Grid) (agents : List Agent)
    (moves : List AgentMove) (st : StepState) (rng : RNG)
    (hmoves : ∀ m ∈ moves, m.agent ∈ agents) (hinv : LineageInv agents st) :
    LineageInv agents (runPhase2 gridOrig agents moves st rng).1 := by
  induction moves generalizing st rng with
  | nil => exact hinv
  | cons m ms ih =>
    exact ih _ _ (fun m2 hm2 => hmoves m2 (List.mem_cons.2 (Or.inr hm2)))
      (processAgentFull_lineage gridOrig agents st m rng
        (hmoves m (List.mem_cons_self m ms)) hinv)

/-- The lineage invariant holds of `stepWorld`'s initial loop state. -/
theorem initState_lineage (grid : Grid) (agents : List Agent) :
    LineageInv agents (initState grid agents) := by
  constructor
  · intro u hu
    simp [initState] at hu
  · exact Nat.lt_succ_self _

/-- The agents returned by `stepWorld` are exactly the Phase-2 result (food
recycling and spawning only touch the grid). -/
theorem stepWorld_agents (agents : List Agent) (grid : Grid)
    (frs : Option FoodRecycleSettings) (rng : RNG) :
    (stepWorld agents grid frs rng).agents =
      (runPhase2 grid agents (computeMoves agents grid rng).1
        (initState grid agents) (computeMoves agents grid rng).2).1.updatedAgents := by
  unfold stepWorld preSpawn
  cases frs with
  | none =>
    dsimp only
    split <;> rfl
  | some s =>
    dsimp only
    split <;> (split <;> rfl)

/-- A member of `foodNeighbors` is an in-bounds neighbour cell with food. -/
theorem foodNeighbors_spec (a : Agent) (g : Grid) (n : NeighborCand)
    (h : n ∈ foodNeighbors a g) :
    (gridGet g n.x n.y).food = true ∧ inBounds n.x n.y = true := by
  unfold foodNeighbors neighborsOf at h
  have h1 := List.mem_filter.1 h
  have h2 := List.mem_filter.1 h1.1
  exact ⟨h1.2, h2.2⟩

end Sim

/-! ## The claims -/

/-- C1: FALSIFIED ON THE CODE.  The claim states that after every
`stepWorld` call no two returned agents share a cell.  In the fixture world,
agent 1 is blocked by water and reverts to its pre-tick cell `(0,0)` without
that cell being reserved in the destination map, so agent 2's move into
`(0,0)` is granted: both returned agents occupy `(0,0)`.  This contradicts
the source's own comment ("CRITICAL BUG FIX #2 … prevents multiple agents
from occupying the same cell"): a reverted agent's cell is never claimed. -/
theorem c1_two_agents_end_on_same_cell :
    ((Sim.stepWorld [Sim.a1C1, Sim.a2C1] Sim.gC1 none Sim.rngC1).agents.map
      (fun a => (a.id, a.x, a.y))) = [(1, 0, 0), (2, 0, 0)] ∧
    ¬ Sim.AtMostOneOccupant (Sim.stepWorld [Sim.a1C1, Sim.a2C1] Sim.gC1 none Sim.rngC1).agents := by
  constructor
  · with_unfolding_all rfl
  · with_unfolding_all decide

/-- C2 counterexample: FALSIFIES THE CLAIM AS STATED over the cited asexual
snapshot.  In the asexual `stepWorld` (source lines 438-441 of the first
snapshot) the spawn roll succeeds (draw 0.1 < 0.6) and the draws `[0, 0]`
would place one food on the eligible empty cell `(0, 0)`, yet the returned
grid still has food count 0: `placeRandomFood` is called but the grid it
returns is discarded. -/
theorem c2_asexual_spawn_discarded_cex :
    ((1 : ℚ)/10 < 3/5) ∧
    Asexual.foodCount (Asexual.stepWorld [] Asexual.gEmptyA [1/10, 0, 0]).grid = 0 ∧
    Asexual.foodCount
      (Asexual.placeRandomFood (Asexual.stepWorld [] Asexual.gEmptyA [1/10, 0, 0]).grid
        1 [0, 0]).1 = 1 := by
  with_unfolding_all decide

/-- C2 (amended to the rich variant): CONFIRMED there.  Whenever the
end-of-tick spawn roll succeeds, the grid returned by the rich `stepWorld`
is exactly the grid produced by `placeRandomFood` on the pre-spawn grid —
the placement is applied to the returned grid, never to a discarded copy —
and the returned food count is at least the pre-spawn food count. -/
theorem c2_spawned_food_reaches_returned_grid (agents : List Sim.Agent)
    (grid : Sim.Grid) (frs : Option Sim.FoodRecycleSettings) (rng : Sim.RNG)
    (hroll : (Sim.randFloat (Sim.preSpawn agents grid frs rng).2.2).1 <
      Sim.foodSpawnChance) :
    (Sim.stepWorld agents grid frs rng).grid =
      (Sim.placeRandomFood (Sim.preSpawn agents grid frs rng).2.1 Sim.foodSpawnCount
        (Sim.randFloat (Sim.preSpawn agents grid frs rng).2.2).2).1 ∧
    Sim.foodCount (Sim.preSpawn agents grid frs rng).2.1 ≤
      Sim.foodCount (Sim.stepWorld agents grid frs rng).grid := by
  have heq : (Sim.stepWorld agents grid frs rng).grid =
      (Sim.placeRandomFood (Sim.preSpawn agents grid frs rng).2.1 Sim.foodSpawnCount
        (Sim.randFloat (Sim.preSpawn agents grid frs rng).2.2).2).1 := by
    simp only [Sim.stepWorld]
    rw [if_pos hroll]
  refine ⟨heq, ?_⟩
  rw [heq]
  exact Sim.foodCount_le_placeRandomFoodAux Sim.foodSpawnCount 0 2000 _ _

/-- Witness for C2: an empty world whose spawn roll succeeds (draw 0.5) and
whose placement draws land on two eligible cells. -/
theorem c2_spawned_food_reaches_returned_grid_witness :
    (Sim.stepWorld [] Sim.gEmptyS none [1/2, 0, 0, 1/2, 1/2]).grid =
      (Sim.placeRandomFood (Sim.preSpawn [] Sim.gEmptyS none [1/2, 0, 0, 1/2, 1/2]).2.1
        Sim.foodSpawnCount
        (Sim.randFloat (Sim.preSpawn [] Sim.gEmptyS none [1/2, 0, 0, 1/2, 1/2]).2.2).2).1 ∧
    Sim.foodCount (Sim.preSpawn [] Sim.gEmptyS none [1/2, 0, 0, 1/2, 1/2]).2.1 ≤
      Sim.foodCount (Sim.stepWorld [] Sim.gEmptyS none [1/2, 0, 0, 1/2, 1/2]).grid :=
  c2_spawned_food_reaches_returned_grid [] Sim.gEmptyS none [1/2, 0, 0, 1/2, 1/2]
    (by with_unfolding_all decide)

/-- C3 counterexample: FALSIFIES THE CLAIM AS STATED over the cited asexual
snapshot.  A starving asexual agent (energy 1, cost 1, no food) dies this
step, yet the Q-value its final Bellman update posts is
`(1-α)·oldQ + α·(rewardAtUpdate + γ·bestNext)` with `rewardAtUpdate = -1`:
the death penalty is only subtracted afterwards (`rewardFinal = -6`, source
line 431), and the posted value `-0.3` differs from the `-1.8` that a
penalised update would have produced. -/
theorem c3_asexual_penalty_after_update_cex :
    (Asexual.processAgent Asexual.gEmptyA Asexual.stC3 Asexual.aDying [9/10]).isDead = true ∧
    (Asexual.processAgent Asexual.gEmptyA Asexual.stC3 Asexual.aDying [9/10]).rewardAtUpdate = -1 ∧
    (Asexual.processAgent Asexual.gEmptyA Asexual.stC3 Asexual.aDying [9/10]).rewardFinal = -6 ∧
    (Asexual.processAgent Asexual.gEmptyA Asexual.stC3 Asexual.aDying [9/10]).updatedQ =
      (1 - Sim.ALPHA) *
          (Asexual.processAgent Asexual.gEmptyA Asexual.stC3 Asexual.aDying [9/10]).oldQ +
        Sim.ALPHA *
          ((Asexual.processAgent Asexual.gEmptyA Asexual.stC3 Asexual.aDying [9/10]).rewardAtUpdate +
            Sim.GAMMA *
              (Asexual.processAgent Asexual.gEmptyA Asexual.stC3 Asexual.aDying [9/10]).bestNext) ∧
    (Asexual.processAgent Asexual.gEmptyA Asexual.stC3 Asexual.aDying [9/10]).updatedQ ≠
      (1 - Sim.ALPHA) *
          (Asexual.processAgent Asexual.gEmptyA Asexual.stC3 Asexual.aDying [9/10]).oldQ +
        Sim.ALPHA *
          ((Asexual.processAgent Asexual.gEmptyA Asexual.stC3 Asexual.aDying [9/10]).rewardFinal +
            Sim.GAMMA *
              (Asexual.processAgent Asexual.gEmptyA Asexual.stC3 Asexual.aDying [9/10]).bestNext) := by
  with_unfolding_all decide

/-- C3 (amended to the rich variant): CONFIRMED there.  In the rich
variant's Phase-2 body, every agent that ends the step dead (energy ≤ 0 or
over the 200-year lifespan) has the death penalty folded into the reward
*before* the Bellman update: the reward used equals the pre-penalty reward
minus 5, and the posted Q-value is the Bellman combination of that penalised
reward. -/
theorem c3_death_penalty_before_q_update (gridOrig : Sim.Grid)
    (agents : List Sim.Agent) (st : Sim.StepState) (m : Sim.AgentMove) (rng : Sim.RNG)
    (hdead : (Sim.processAgentFull gridOrig agents st m rng).isDeadAfterStep = true) :
    (Sim.processAgentFull gridOrig agents st m rng).reward =
      (Sim.processAgentFull gridOrig agents st m rng).rewardBeforePenalty - 5 ∧
    (Sim.processAgentFull gridOrig agents st m rng).updatedQ =
      (1 - Sim.ALPHA) * (Sim.processAgentFull gridOrig agents st m rng).oldQ +
        Sim.ALPHA * ((Sim.processAgentFull gridOrig agents st m rng).reward +
          Sim.GAMMA * (Sim.processAgentFull gridOrig agents st m rng).bestNext) := by
  unfold Sim.processAgentFull at hdead ⊢
  exact Sim.finishAgent_spec _ _ _ _ _ _ _ _ _ _ hdead

/-- Witness for C3: the starving fixture agent dies and its final update
uses the penalised reward `-6`. -/
theorem c3_death_penalty_before_q_update_witness :
    (Sim.processAgentFull Sim.gEmptyS [] (Sim.initState Sim.gEmptyS []) Sim.mC3 []).reward =
      (Sim.processAgentFull Sim.gEmptyS [] (Sim.initState Sim.gEmptyS [])
        Sim.mC3 []).rewardBeforePenalty - 5 ∧
    (Sim.processAgentFull Sim.gEmptyS [] (Sim.initState Sim.gEmptyS []) Sim.mC3 []).updatedQ =
      (1 - Sim.ALPHA) *
          (Sim.processAgentFull Sim.gEmptyS [] (Sim.initState Sim.gEmptyS []) Sim.mC3 []).oldQ +
        Sim.ALPHA *
          ((Sim.processAgentFull Sim.gEmptyS [] (Sim.initState Sim.gEmptyS []) Sim.mC3 []).reward +
            Sim.GAMMA *
              (Sim.processAgentFull Sim.gEmptyS [] (Sim.initState Sim.gEmptyS [])
                Sim.mC3 []).bestNext) :=
  c3_death_penalty_before_q_update Sim.gEmptyS [] (Sim.initState Sim.gEmptyS []) Sim.mC3 []
    (by with_unfolding_all decide)

/-- C9 counterexample: FALSIFIES THE CLAIM AS STATED.  A ragged persisted
grid — 10 rows whose first row has the configured 16 cells but whose second
row has only 1 — does not have the configured 16×10 dimensions, yet the load
accepts it (no error) and replaces the previously-running world state: the
source checks only `grid.length` and `grid[0]?.length`. -/
theorem c9_ragged_grid_accepted_cex :
    (Load.handleFileLoad Load.stPrev (some Load.raggedInput)).loadError = none ∧
    (Load.handleFileLoad Load.stPrev (some Load.raggedInput)).grid = Load.raggedGrid ∧
    Load.raggedGrid ≠ Load.stPrev.grid ∧
    ¬ (∀ row ∈ Load.raggedGrid, row.length = 16) := by
  with_unfolding_all decide

/-- C9 (amended to the checks the source performs): load rejects with a
descriptive error — leaving grid, agents, tick and history untouched —
whenever parsing fails, a required top-level field is missing, the row count
differs from the configured height or the *first* row's length differs from
the configured width, or any agent's `(x, y)` lies outside grid bounds. -/
theorem c9_load_rejects_and_preserves_state (st : Load.AppState)
    (input : Option Load.ParsedWorld) (hbad : Load.ShouldReject input) :
    (Load.handleFileLoad st input).grid = st.grid ∧
    (Load.handleFileLoad st input).agents = st.agents ∧
    (Load.handleFileLoad st input).tick = st.tick ∧
    (Load.handleFileLoad st input).history = st.history ∧
    (Load.handleFileLoad st input).loadError ≠ none := by
  rcases hbad with h | ⟨p, rfl, hp⟩
  · subst h
    exact ⟨rfl, rfl, rfl, rfl, by simp [Load.handleFileLoad]⟩
  · obtain ⟨og, oa, ot, oh⟩ := p
    cases og with
    | none => exact ⟨rfl, rfl, rfl, rfl, by simp [Load.handleFileLoad]⟩
    | some g =>
      cases oa with
      | none => exact ⟨rfl, rfl, rfl, rfl, by simp [Load.handleFileLoad]⟩
      | some ags =>
        cases ot with
        | none => exact ⟨rfl, rfl, rfl, rfl, by simp [Load.handleFileLoad]⟩
        | some t =>
          cases oh with
          | none => exact ⟨rfl, rfl, rfl, rfl, by simp [Load.handleFileLoad]⟩
          | some h =>
            by_cases hdim : Load.DimensionMismatch g
            · refine ⟨?_, ?_, ?_, ?_, ?_⟩ <;>
                simp [Load.handleFileLoad, hdim]
            · have hag : ∃ a ∈ ags, Load.AgentOutOfBounds a := by
                rcases hp with h1 | h1 | h1 | h1 | ⟨g2, hg2, hd2⟩ | ⟨ags2, ha2, hex⟩
                · exact absurd h1 (by simp)
                · exact absurd h1 (by simp)
                · exact absurd h1 (by simp)
                · exact absurd h1 (by simp)
                · rw [Option.some_inj] at hg2
                  exact absurd (hg2 ▸ hd2) hdim
                · rw [Option.some_inj] at ha2
                  exact ha2 ▸ hex
              refine ⟨?_, ?_, ?_, ?_, ?_⟩ <;>
                simp [Load.handleFileLoad, hdim, hag]

/-- Witness for C9 (amended): a parsed object whose `tick` field is missing
is rejected and the previous state survives unchanged. -/
theorem c9_load_rejects_and_preserves_state_witness :
    (Load.handleFileLoad Load.stPrev (some Load.missingTickInput)).grid = Load.stPrev.grid ∧
    (Load.handleFileLoad Load.stPrev (some Load.missingTickInput)).agents = Load.stPrev.agents ∧
    (Load.handleFileLoad Load.stPrev (some Load.missingTickInput)).tick = Load.stPrev.tick ∧
    (Load.handleFileLoad Load.stPrev (some Load.missingTickInput)).history = Load.stPrev.history ∧
    (Load.handleFileLoad Load.stPrev (some Load.missingTickInput)).loadError ≠ none :=
  c9_load_rejects_and_preserves_state Load.stPrev (some Load.missingTickInput)
    (Or.inr ⟨Load.missingTickInput, rfl, Or.inr (Or.inr (Or.inl rfl))⟩)

/-- C4: FALSIFIED ON THE CODE.  The claim (and the spec) say
`bestActionAndValue` returns `{stay, 0}` on an all-missing state and that
`stay` wins ties.  Because `getQ` defaults missing entries to `0`, the very
first scanned action `up` already beats the `-∞` start, so the all-missing
case returns `{up, 0}` and the dead `-∞` branch (which would have returned
`{stay, 0}`) is unreachable; the strict `>` comparison makes the *first*
action in scan order win ties, so `stay` (scanned last) loses the tie below
to `up`. -/
theorem c4_best_action_defaults_to_up :
    Sim.bestActionAndValue [] "mid_0000" = (Sim.Direction.up, 0) ∧
    Sim.bestActionAndValue [] "mid_0000" ≠ (Sim.Direction.stay, 0) ∧
    Sim.bestActionAndValue [("mid_0000|up", 1), ("mid_0000|stay", 1)] "mid_0000" =
      (Sim.Direction.up, 1) := by
  with_unfolding_all decide

/-- C8: CONFIRMED.  `fertilityFactor` returns exactly 0 at and below the
minimum reproductive age (20) and at and above the maximum (120), stays in
`[0,1]` for every non-negative age, and is exactly 1 at the prime age 28. -/
theorem c8_fertility_window :
    (∀ a : ℚ, a ≤ Sim.minReproAgeYears → Sim.fertilityFactor a = 0) ∧
    (∀ a : ℚ, Sim.maxReproAgeYears ≤ a → Sim.fertilityFactor a = 0) ∧
    (∀ a : ℚ, 0 ≤ a → 0 ≤ Sim.fertilityFactor a ∧ Sim.fertilityFactor a ≤ 1) ∧
    Sim.fertilityFactor Sim.primeAge = 1 := by
  refine ⟨fun a h => ?_, fun a h => ?_, fun a _ => ?_, ?_⟩
  · simp only [Sim.fertilityFactor]
    rw [if_pos (Or.inl h)]
  · simp only [Sim.fertilityFactor]
    rw [if_pos (Or.inr h)]
  · simp only [Sim.fertilityFactor, Sim.minReproAgeYears, Sim.maxReproAgeYears, Sim.primeAge]
    split
    · exact ⟨le_refl 0, by norm_num⟩
    · rename_i hout
      push_neg at hout
      obtain ⟨h20, h120⟩ := hout
      split
      · rename_i h28
        constructor
        · apply div_nonneg <;> linarith
        · rw [div_le_one (by norm_num : (0:ℚ) < 28 - 20)]
          linarith
      · rename_i h28
        push_neg at h28
        constructor
        · have : (a - 28) / (120 - 28) ≤ 1 := by
            rw [div_le_one (by norm_num : (0:ℚ) < 120 - 28)]
            linarith
          linarith
        · have : 0 ≤ (a - 28) / (120 - 28) := by
            apply div_nonneg <;> linarith
          linarith
  · simp only [Sim.fertilityFactor, Sim.minReproAgeYears, Sim.maxReproAgeYears, Sim.primeAge]
    norm_num

/-- C5: CONFIRMED.  Under the Phase-2 occupancy invariant (which holds in
every state `stepWorld` reaches, see `runPhase2_covered`), every successful
mating debits the acting parent by `parentCost` and the mate's entry of the
processed list by `mateCost`, with `parentCost + mateCost` equal to the
newborn child's energy.  Mates are found through the post-move occupancy
grid, so a mate is necessarily an already-processed agent (a not-yet
processed agent is not on that grid; the source's fallback lookup into the
original list is unreachable), and the debit is never lost. -/
theorem c5_mating_debits_both_parents (gridOrig : Sim.Grid)
    (agents : List Sim.Agent) (st : Sim.StepState) (m : Sim.AgentMove)
    (rng : Sim.RNG) (info : Sim.MatingInfo) (hcov : Sim.GridIdsCovered st)
    (h : (Sim.processAgentFull gridOrig agents st m rng).mating = some info) :
    info.parentCost + info.mateCost = info.childEnergy ∧
    info.child.energy = info.childEnergy ∧
    (Sim.processAgentFull gridOrig agents st m rng).parentAfter.energy =
      info.parentEnergyBefore - info.parentCost ∧
    info.mateIdx < st.updatedAgents.length ∧
    st.updatedAgents[info.mateIdx]? = some info.mate ∧
    (Sim.processAgentFull gridOrig agents st m rng).st.updatedAgents[info.mateIdx]? =
      some { info.mate with energy := info.mate.energy - info.mateCost } := by
  have hcov2 : Sim.GridIdsCovered (Sim.moveStage gridOrig st m).st :=
    Sim.moveStage_covered gridOrig st m hcov
  have h2 : (Sim.reproductionPhase agents (Sim.moveStage gridOrig st m).st
      (Sim.moveStage gridOrig st m).parent0 rng).mating = some info := h
  obtain ⟨k1, k2, k3, _, k5, k6, k7, k8⟩ :=
    Sim.reproductionPhase_spec agents (Sim.moveStage gridOrig st m).st
      (Sim.moveStage gridOrig st m).parent0 rng info hcov2 h2
  rw [Sim.moveStage_updatedAgents] at k5 k6
  refine ⟨k1, k2, k3, k5, k6, ?_⟩
  have hlt : info.mateIdx < (Sim.reproductionPhase agents (Sim.moveStage gridOrig st m).st
      (Sim.moveStage gridOrig st m).parent0 rng).st.updatedAgents.length := by
    rw [k8, Sim.moveStage_updatedAgents]
    omega
  have hp : (Sim.processAgentFull gridOrig agents st m rng).st.updatedAgents[info.mateIdx]? =
      (Sim.reproductionPhase agents (Sim.moveStage gridOrig st m).st
        (Sim.moveStage gridOrig st m).parent0 rng).st.updatedAgents[info.mateIdx]? :=
    Sim.finishAgent_updatedAgents_prefix _ _ _ _ _ _ _ _ _ _ info.mateIdx hlt
  rw [hp]
  exact k7

/-- Witness for C5: a concrete successful mating (both parents at the prime
age, energies 19 each after the move) debits 6 from each parent for a child
of energy 12. -/
theorem c5_mating_debits_both_parents_witness :
    Sim.infoC5.parentCost + Sim.infoC5.mateCost = Sim.infoC5.childEnergy ∧
    Sim.infoC5.child.energy = Sim.infoC5.childEnergy ∧
    (Sim.processAgentFull Sim.gEmptyS [] Sim.stC5 Sim.mC5 Sim.rngC5).parentAfter.energy =
      Sim.infoC5.parentEnergyBefore - Sim.infoC5.parentCost ∧
    Sim.infoC5.mateIdx < Sim.stC5.updatedAgents.length ∧
    Sim.stC5.updatedAgents[Sim.infoC5.mateIdx]? = some Sim.infoC5.mate ∧
    (Sim.processAgentFull Sim.gEmptyS [] Sim.stC5 Sim.mC5 Sim.rngC5).st.updatedAgents[Sim.infoC5.mateIdx]? =
      some { Sim.infoC5.mate with energy := Sim.infoC5.mate.energy - Sim.infoC5.mateCost } :=
  c5_mating_debits_both_parents Sim.gEmptyS [] Sim.stC5 Sim.mC5 Sim.rngC5 Sim.infoC5
    (by with_unfolding_all decide)
    (by with_unfolding_all decide)

/-- C6: CONFIRMED.  Whenever an agent's energy is at most
`hungryCutoffRatio × foodPreference` and it has at least one in-bounds
orthogonal neighbour with food, `decideMove` returns the direction of one of
those food neighbours, for every Q-table content and every valid draw
stream: the hard survival rule fires before the social bias and before the
learned policy. -/
theorem c6_hard_survival_rule_overrides (agent : Sim.Agent) (grid : Sim.Grid)
    (stateKey : String) (allAgents : List Sim.Agent) (rng : Sim.RNG)
    (hvalid : Sim.ValidRNG rng)
    (hhungry : agent.energy ≤ Sim.hungryCutoffRatio * agent.genes.foodPreference)
    (hfood : Sim.foodNeighbors agent grid ≠ []) :
    ∃ n ∈ Sim.foodNeighbors agent grid,
      (Sim.decideMove agent grid stateKey allAgents rng).1.dir = n.dir ∧
      (Sim.gridGet grid n.x n.y).food = true ∧ Sim.inBounds n.x n.y = true := by
  have hlen : 0 < (Sim.foodNeighbors agent grid).length := List.length_pos.2 hfood
  have hidx := Sim.randomInt_lt (Sim.foodNeighbors agent grid).length rng hlen hvalid
  have hmem := Sim.getD_mem_of_lt (Sim.foodNeighbors agent grid)
    (Sim.randomInt (Sim.foodNeighbors agent grid).length rng).1
    ⟨agent.x, agent.y, Sim.Direction.stay⟩ hidx
  refine ⟨_, hmem, ?_, Sim.foodNeighbors_spec agent grid _ hmem⟩
  simp only [Sim.decideMove]
  split
  · rfl
  · rename_i hcond
    exact absurd ⟨hhungry, hfood⟩ hcond

/-- Witness for C6: a hungry agent (energy 5, hunger cutoff 6) with food
only on its north neighbour moves north even though its Q-table strongly
favours `down`. -/
theorem c6_hard_survival_rule_overrides_witness :
    (Sim.decideMove Sim.aC6 Sim.gC6 "low_1000" [] [(1 : ℚ)/2]).1.dir =
      Sim.Direction.up := by
  obtain ⟨n, hn, hdir, -, -⟩ :=
    c6_hard_survival_rule_overrides Sim.aC6 Sim.gC6 "low_1000" [] [(1 : ℚ)/2]
      (by with_unfolding_all decide)
      (by with_unfolding_all decide)
      (by with_unfolding_all decide)
  have hfn : Sim.foodNeighbors Sim.aC6 Sim.gC6 = [⟨3, 2, Sim.Direction.up⟩] := by
    with_unfolding_all rfl
  rw [hfn, List.mem_singleton] at hn
  subst hn
  exact hdir

/-- C7: CONFIRMED (reading "configured [min,max]" as the clamp bounds the
source passes to `mutateValue`, which for `reproductionThreshold` and
`mutationRate` are the configured `CONFIG.genes.mutation.*Min/Max` values
and for the four unit genes are the hard-coded `[0,1]`; the narrower
`CONFIG.genes.*` ranges only seed the initial population).  For every parent
vector inside those bounds, `mutateGenes` and `combineGenes` stay inside
them for every outcome of the draws; in this rational-number semantics every
gene is a well-defined rational, so no `NaN` can arise. -/
theorem c7_gene_bounds_preserved :
    (∀ (p : Sim.Genes) (rng : Sim.RNG), Sim.GenesInBounds p →
      Sim.GenesInBounds (Sim.mutateGenes p rng).1) ∧
    (∀ (p1 p2 : Sim.Genes) (rng : Sim.RNG), Sim.GenesInBounds p1 →
      Sim.GenesInBounds p2 → Sim.GenesInBounds (Sim.combineGenes p1 p2 rng).1) := by
  refine ⟨Sim.mutateGenes_bounds, fun p1 p2 rng h1 h2 => ?_⟩
  obtain ⟨a1, a2, a3, a4, a5, a6⟩ := h1
  obtain ⟨b1, b2, b3, b4, b5, b6⟩ := h2
  unfold Sim.combineGenes
  apply Sim.mutateGenes_bounds
  exact ⟨Sim.avg_mem _ _ _ _ a1.1 a1.2 b1.1 b1.2,
    Sim.avg_mem _ _ _ _ a2.1 a2.2 b2.1 b2.2,
    Sim.avg_mem _ _ _ _ a3.1 a3.2 b3.1 b3.2,
    Sim.avg_mem _ _ _ _ a4.1 a4.2 b4.1 b4.2,
    Sim.avg_mem _ _ _ _ a5.1 a5.2 b5.1 b5.2,
    Sim.avg_mem _ _ _ _ a6.1 a6.2 b6.1 b6.2⟩

/-- Witness for C7: both operations evaluated on concrete in-bounds parents
with draws that force every gene to mutate. -/
theorem c7_gene_bounds_preserved_witness :
    Sim.GenesInBounds (Sim.mutateGenes Sim.genesNeutral
      [0, 0, 0, 0, 0, 0, 0, 0, 0, 0, 0, 0, 0, 0]).1 ∧
    Sim.GenesInBounds (Sim.combineGenes Sim.genesNeutral Sim.genesNeutral
      [0, 0, 0, 0, 0, 0, 0, 0, 0, 0, 0, 0, 0, 0]).1 :=
  ⟨c7_gene_bounds_preserved.1 Sim.genesNeutral _ (by with_unfolding_all decide),
    c7_gene_bounds_preserved.2 Sim.genesNeutral Sim.genesNeutral _
      (by with_unfolding_all decide) (by with_unfolding_all decide)⟩

/-- C10: CONFIRMED.  For every valid input world (distinct agent ids),
every agent present in both the input and the output of `stepWorld` keeps
its id, sex and genes: survivors only change position, energy, age, rule
tag and memory, mates are debited energy only, and newborn children get
fresh ids above every input id, so they never collide with an input
agent. -/
theorem c10_step_preserves_id_sex_genes (agents : List Sim.Agent)
    (grid : Sim.Grid) (frs : Option Sim.FoodRecycleSettings) (rng : Sim.RNG)
    (hnodup : (agents.map Sim.Agent.id).Nodup) :
    ∀ a2 ∈ (Sim.stepWorld agents grid frs rng).agents, ∀ a1 ∈ agents,
      a2.id = a1.id → a2.sex = a1.sex ∧ a2.genes = a1.genes := by
  intro a2 h2 a1 h1 heq
  rw [Sim.stepWorld_agents] at h2
  have hinv := Sim.runPhase2_lineage grid agents (Sim.computeMoves agents grid rng).1
    (Sim.initState grid agents) (Sim.computeMoves agents grid rng).2
    (Sim.computeMoves_mem agents grid rng) (Sim.initState_lineage grid agents)
  rcases hinv.1 a2 h2 with ⟨a0, ha0, hid, hsex, hg⟩ | hnew
  · have ha01 : a0 = a1 :=
      List.inj_on_of_nodup_map hnodup ha0 h1 (hid.symm.trans heq)
    subst ha01
    exact ⟨hsex, hg⟩
  · exfalso
    have hle := Sim.id_le_maxId agents a1 h1
    omega

/-- Witness for C10 on the concrete two-agent collision world: the first
returned agent is input agent 1 with unchanged sex and genes. -/
theorem c10_step_preserves_id_sex_genes_witness :
    ((Sim.stepWorld [Sim.a1C1, Sim.a2C1] Sim.gC1 none Sim.rngC1).agents.headD
      Sim.aDyingS).sex = Sim.a1C1.sex ∧
    ((Sim.stepWorld [Sim.a1C1, Sim.a2C1] Sim.gC1 none Sim.rngC1).agents.headD
      Sim.aDyingS).genes = Sim.a1C1.genes :=
  c10_step_preserves_id_sex_genes [Sim.a1C1, Sim.a2C1] Sim.gC1 none Sim.rngC1
    (by with_unfolding_all decide)
    ((Sim.stepWorld [Sim.a1C1, Sim.a2C1] Sim.gC1 none Sim.rngC1).agents.headD
      Sim.aDyingS)
    (by with_unfolding_all decide)
    Sim.a1C1 (by with_unfolding_all decide)
    (by with_unfolding_all decide)

/-- Witness for C8 at concrete ages 10, 150, 50 and 28. -/
theorem c8_fertility_window_witness :
    Sim.fertilityFactor 10 = 0 ∧ Sim.fertilityFactor 150 = 0 ∧
    (0 ≤ Sim.fertilityFactor 50 ∧ Sim.fertilityFactor 50 ≤ 1) ∧
    Sim.fertilityFactor Sim.primeAge = 1 :=
  ⟨c8_fertility_window.1 10 (by norm_num [Sim.minReproAgeYears]),
    c8_fertility_window.2.1 150 (by norm_num [Sim.maxReproAgeYears]),
    c8_fertility_window.2.2.1 50 (by norm_num),
    c8_fertility_window.2.2.2⟩

